import Mathlib

/-!
Verification of the Cyberbank issuer core: a shallow embedding of the
PAN generator (`internal/cardgen`), the demo CVV provider
(`internal/security`), the expiry calculator (`internal/expiry`) and the
database-backed ledger repository (`issuer/repository.go` together with the
schema constraints of `migrations/issuer/0001_init_postgres.sql`), with
theorems settling the stated behavioural claims.

Modelling conventions:
* Go strings are Lean `String`s; byte comparisons on ASCII data are modelled
  through `Char.toNat`.
* `crypto/rand` byte streams are explicit `List Nat` arguments threaded
  through the generators; rejection sampling is embedded as written.
* Database state is a `DB` record of table rows.  Every repository operation
  runs inside one SQL transaction, so it is embedded as a function
  `DB → Except LedgerErr (α × DB)`: an `Except.error` result is a rollback
  and the caller keeps the pre-state.  The `CHECK` constraints of the schema
  (`available_balance >= 0`, `hold_balance >= 0`, `amount > 0`,
  `amount <> 0`) are enforced on every row an INSERT or UPDATE writes, as
  Postgres does; a violated constraint aborts the statement.
* Wall-clock instants are `Int` nanoseconds since the Unix epoch; a
  `*time.Location` is modelled as a fixed UTC offset in seconds.
-/

/-! ## ASCII helpers shared by the embedded packages -/

/-- Model of `strings.ToUpper` on one ASCII character (`a`..`z` map to
`A`..`Z`, everything else is unchanged). -/
def toUpperChar (c : Char) : Char :=
  if 97 ≤ c.toNat ∧ c.toNat ≤ 122 then Char.ofNat (c.toNat - 32) else c

/-- Model of `strings.ToUpper` (restricted to ASCII, which is all the code
feeds it: currency codes and digit strings). -/
def goToUpper (s : String) : String := ⟨s.data.map toUpperChar⟩

theorem char_toNat_ofNat_valid (n : Nat) (h : n.isValidChar) :
    (Char.ofNat n).toNat = n := by
  rw [Char.ofNat, dif_pos h]
  rfl

theorem toUpperChar_idem (c : Char) : toUpperChar (toUpperChar c) = toUpperChar c := by
  unfold toUpperChar
  by_cases h : 97 ≤ c.toNat ∧ c.toNat ≤ 122
  · rw [if_pos h]
    have hv : (c.toNat - 32).isValidChar := Or.inl (by omega)
    have ht : (Char.ofNat (c.toNat - 32)).toNat = c.toNat - 32 :=
      char_toNat_ofNat_valid _ hv
    rw [if_neg]
    omega
  · rw [if_neg h, if_neg h]

theorem goToUpper_idem (s : String) : goToUpper (goToUpper s) = goToUpper s := by
  unfold goToUpper
  cases s with
  | mk l =>
    simp only [List.map_map]
    congr 1
    apply List.map_congr_left
    intro c _
    exact toUpperChar_idem c

/-! ## `internal/cardgen`: PAN generation and validation -/

/-- Error kinds of the `cardgen` package (one constructor per distinct
`fmt.Errorf` site). -/
inductive CardErr where
  | panRequired
  | panNotDigits
  | panBadLength
  | badLuhn
  | binRequired
  | binNotDigits
  | binBadLength
  | binTooLong
  | lengthRange
  | seqNotNumeric
  | seqTooLong
  | randFailed
  | exhausted (retries : Int)
  deriving DecidableEq, Repr

/-- `s[i] >= '0' && s[i] <= '9'` on one byte. -/
def isDigitChar (c : Char) : Bool := decide (48 ≤ c.toNat) && decide (c.toNat ≤ 57)

/-- `cardgen.IsDigits`. -/
def IsDigits (s : String) : Bool := s.data.all isDigitChar

/-- Numeric value of a digit character (`c - '0'`). -/
def digitVal (c : Char) : Nat := c.toNat - 48

/-- Digit character for a value `0..9` (`'0' + d`). -/
def digitChar (d : Nat) : Char := Char.ofNat (48 + d)

/-- One step of the Luhn weighted sum: `d *= 2; if d > 9 { d -= 9 }`. -/
def luhnDouble (d : Nat) : Nat :=
  let x := d * 2
  if x > 9 then x - 9 else x

/-- Luhn sum of a digit list given rightmost-first (the Go loop walks the
body from its last byte with the doubling flag starting `true`). -/
def luhnSumRev : List Nat → Bool → Nat
  | [], _ => 0
  | d :: ds, dbl => (if dbl then luhnDouble d else d) + luhnSumRev ds (!dbl)

/-- Digit values of a digit string. -/
def digitsOf (s : String) : List Nat := s.data.map digitVal

/-- `cardgen.luhnCheckDigit` as a number `0..9`:
`(10 - (sum % 10)) % 10` over the body walked right-to-left. -/
def luhnCheckDigitN (body : String) : Nat :=
  (10 - luhnSumRev (digitsOf body).reverse true % 10) % 10

/-- `cardgen.luhnCheckDigit` (returns the one-character string
`string('0' + cd)`). -/
def luhnCheckDigit (body : String) : String := ⟨[digitChar (luhnCheckDigitN body)]⟩

/-- `cardgen.ValidatePAN`. -/
def ValidatePAN (pan : String) : Except CardErr Unit :=
  if pan = "" then .error .panRequired
  else if !IsDigits pan then .error .panNotDigits
  else if pan.length < 13 ∨ 19 < pan.length then .error .panBadLength
  else if pan.data.getLastD ' ' = digitChar (luhnCheckDigitN ⟨pan.data.dropLast⟩)
    then .ok ()
  else .error .badLuhn

/-- `cardgen.ValidateBIN`. -/
def ValidateBIN (bin : String) : Except CardErr Unit :=
  if bin = "" then .error .binRequired
  else if !IsDigits bin then .error .binNotDigits
  else if bin.length = 6 ∨ bin.length = 8 ∨ bin.length = 9 then .ok ()
  else .error .binBadLength

/-- ASCII whitespace, as `strings.TrimSpace` treats it. -/
def isSpaceChar (c : Char) : Bool :=
  c == ' ' || c == '\t' || c == '\n' || c == '\r'

/-- Model of `strings.TrimSpace` (ASCII whitespace). -/
def goTrimSpace (s : String) : String :=
  ⟨((s.data.dropWhile isSpaceChar).reverse.dropWhile isSpaceChar).reverse⟩

/-- `cardgen.randomDigits`: rejection sampling over a byte stream.  Only
bytes `< 250` are accepted and mapped `b % 10`; others are discarded.  The
stream is explicit; running out of bytes models a `rand.Read` failure.
Returns the digits and the unconsumed rest of the stream. -/
def randomDigits : Nat → List Nat → Option (List Nat × List Nat)
  | 0, bs => some ([], bs)
  | _ + 1, [] => none
  | n + 1, b :: rest =>
    if b < 250 then
      (randomDigits n rest).map (fun p => ((b % 10) :: p.1, p.2))
    else
      randomDigits (n + 1) rest

/-- Body digits after the optional `sequence` override
(`copy(b[fill-len(seq):], seq)`). -/
def overlaySeq (fillDigits : List Nat) (seq : String) : List Nat :=
  if seq = "" then fillDigits
  else fillDigits.take (fillDigits.length - seq.length) ++ digitsOf seq

/-- `cardgen.GeneratePANWithLength`.  `bytes` is the `crypto/rand` stream. -/
def GeneratePANWithLength (bin : String) (totalLen : Int) (sequence : String)
    (bytes : List Nat) : Except CardErr (String × List Nat) :=
  match ValidateBIN bin with
  | .error e => .error e
  | .ok _ =>
    if totalLen < 13 ∨ 19 < totalLen then .error .lengthRange
    else
      let fill : Int := totalLen - 1 - (bin.length : Int)
      if fill ≤ 0 then .error .binTooLong
      else
        let seq := goTrimSpace sequence
        if seq ≠ "" ∧ ¬IsDigits seq then .error .seqNotNumeric
        else if seq ≠ "" ∧ fill < (seq.length : Int) then .error .seqTooLong
        else
          match randomDigits fill.toNat bytes with
          | none => .error .randFailed
          | some (ds, rest) =>
            let body : String := ⟨bin.data ++ (overlaySeq ds seq).map digitChar⟩
            .ok (⟨body.data ++ [digitChar (luhnCheckDigitN body)]⟩, rest)

/-- `cardgen.GeneratePAN`: fixed total length 16 (`panLen`), no range
check. -/
def GeneratePAN (bin : String) (sequence : String) (bytes : List Nat) :
    Except CardErr (String × List Nat) :=
  match ValidateBIN bin with
  | .error e => .error e
  | .ok _ =>
    let fill : Int := 16 - 1 - (bin.length : Int)
    if fill ≤ 0 then .error .binTooLong
    else
      let seq := goTrimSpace sequence
      if seq ≠ "" ∧ ¬IsDigits seq then .error .seqNotNumeric
      else if seq ≠ "" ∧ fill < (seq.length : Int) then .error .seqTooLong
      else
        match randomDigits fill.toNat bytes with
        | none => .error .randFailed
        | some (ds, rest) =>
          let body : String := ⟨bin.data ++ (overlaySeq ds seq).map digitChar⟩
          .ok (⟨body.data ++ [digitChar (luhnCheckDigitN body)]⟩, rest)

/-- Loop body of `cardgen.GenerateUniquePAN` with the retry budget as
explicit fuel (`for i := 0; i <= maxRetries; i++` runs `maxRetries+1`
iterations).  The callback is `Option`al, modelling the `exists == nil`
short-circuit; the Go callback may also return an error, which the claims
do not exercise and the embedding leaves out.  Alongside the result the
loop returns the trace of PANs it generated, newest last. -/
def generateUniquePANLoop (bin : String) (totalLen : Int) (sequence : String)
    (ex : Option (String → Bool)) (mr : Int) :
    Nat → List Nat → Except CardErr String × List String
  | 0, _ => (.error (.exhausted mr), [])
  | n + 1, bytes =>
    match GeneratePANWithLength bin totalLen sequence bytes with
    | .error e => (.error e, [])
    | .ok (pan, rest) =>
      match ex with
      | none => (.ok pan, [pan])
      | some f =>
        if f pan then
          let r := generateUniquePANLoop bin totalLen sequence ex mr n rest
          (r.1, pan :: r.2)
        else (.ok pan, [pan])

/-- `cardgen.GenerateUniquePAN`: defaults `maxRetries` to 5 when given
`≤ 0`, then makes at most `maxRetries+1` attempts. -/
def GenerateUniquePAN (bin : String) (totalLen : Int) (sequence : String)
    (maxRetries : Int) (ex : Option (String → Bool)) (bytes : List Nat) :
    Except CardErr String :=
  let mr : Int := if maxRetries ≤ 0 then 5 else maxRetries
  (generateUniquePANLoop bin totalLen sequence ex mr (mr.toNat + 1) bytes).1

/-! ## `internal/expiry`: expiry instants -/

/-- Error kinds of the `expiry` package validators. -/
inductive ExpiryErr where
  | badLen
  | notDigits
  | badMonth
  deriving DecidableEq, Repr

/-- `expiry.ValidateYYMM`. -/
def ValidateYYMM (yymm : String) : Except ExpiryErr Unit :=
  if yymm.length ≠ 4 then .error .badLen
  else if !IsDigits yymm then .error .notDigits
  else if digitVal (yymm.data.getD 2 ' ') * 10 + digitVal (yymm.data.getD 3 ' ') < 1 ∨
      12 < digitVal (yymm.data.getD 2 ' ') * 10 + digitVal (yymm.data.getD 3 ' ')
    then .error .badMonth
  else .ok ()

/-- Fixed-offset model of a `*time.Location` (offset east of UTC in
seconds; UTC is offset 0). -/
structure GoLocation where
  offsetSec : Int
  deriving DecidableEq, Repr

/-- Days from the civil epoch 1970-01-01 to the civil date `y-m-d`
(Howard Hinnant's `days_from_civil`; the same calendar arithmetic
`time.Date` performs). -/
def daysFromCivil (y m d : Int) : Int :=
  let y := y - (if m ≤ 2 then 1 else 0)
  let era := (if 0 ≤ y then y else y - 399) / 400
  let yoe := y - era * 400
  let doy := (153 * (if 2 < m then m - 3 else m + 9) + 2) / 5 + d - 1
  let doe := yoe * 365 + yoe / 4 - yoe / 100 + doy
  era * 146097 + doe - 719468

/-- Nanoseconds per second. -/
def nsPerSec : Int := 1000000000

/-- `time.Date(year, month, day, 0, 0, 0, 0, loc)` as epoch nanoseconds.
Out-of-range months are normalized exactly as `time.Date` does
(floor-divide the zero-based month by 12 into the year). -/
def goDate (year month day : Int) (loc : GoLocation) : Int :=
  (daysFromCivil (year + (month - 1) / 12) ((month - 1) % 12 + 1) day * 86400
    - loc.offsetSec) * nsPerSec

/-- `expiry.ParseYYMMEndOfMonth`: the first instant of the *following*
month in `loc`, minus one nanosecond.  In the source
`firstNext := time.Date(year, mm, 1, ..., loc).AddDate(0, 1, 0)`, and
`AddDate(0, 1, 0)` of the first of a month is
`time.Date(year, mm+1, 1, ..., loc)`. -/
def ParseYYMMEndOfMonth (yymm : String) (loc : GoLocation) : Except ExpiryErr Int :=
  match ValidateYYMM yymm with
  | .error e => .error e
  | .ok _ =>
    let yy := digitVal (yymm.data.getD 0 ' ') * 10 + digitVal (yymm.data.getD 1 ' ')
    let mm := digitVal (yymm.data.getD 2 ' ') * 10 + digitVal (yymm.data.getD 3 ' ')
    let year : Int := 2000 + yy
    .ok (goDate year ((mm : Int) + 1) 1 loc - 1)

/-- `expiry.IsExpired`: strictly after the end-of-month instant
(`at.After(end)`; `at.In` only changes the presentation location, not the
instant). -/
def IsExpired (yymm : String) (t : Int) (loc : GoLocation) : Except ExpiryErr Bool :=
  match ParseYYMMEndOfMonth yymm loc with
  | .error e => .error e
  | .ok endT => .ok (decide (endT < t))

/-- Spec-side notion for C10: the first instant of the civil month `y-m`
in `loc`, as epoch nanoseconds. -/
def firstInstantOfMonth (y m : Int) (loc : GoLocation) : Int :=
  (daysFromCivil y m 1 * 86400 - loc.offsetSec) * nsPerSec

/-- Spec-side notion for C10: the month following `y-m`. -/
def followingMonth (y m : Int) : Int × Int :=
  if m = 12 then (y + 1, 1) else (y, m + 1)

/-! ## `internal/security`: demo (HMAC) CVV provider -/

/-- Error kinds of the demo CVV provider. -/
inductive CvvErr where
  | keyMissing
  | badExpiry (e : ExpiryErr)
  | badServiceCode
  | badPan (e : CardErr)
  deriving DecidableEq, Repr

/-- `validateServiceCode` / the inline service-code check:
exactly 3 digits. -/
def validServiceCode (sc : String) : Bool := sc.length == 3 && IsDigits sc

/-- `validatePanNoCD`: digits only, length 12..18. -/
def validatePanNoCD (noCD : String) : Except CvvErr Unit :=
  if noCD = "" ∨ ¬IsDigits noCD then .error (.badPan .panNotDigits)
  else if noCD.length < 12 ∨ 18 < noCD.length then .error (.badPan .panBadLength)
  else .ok ()

/-- `buildValidPAN`: append the Luhn check digit to `panNoCD`. -/
def buildValidPAN (noCD : String) : String :=
  ⟨noCD.data ++ [digitChar (luhnCheckDigitN noCD)]⟩

/-- `stripCheckDigit`. -/
def stripCheckDigit (pan : String) : String :=
  if pan.length = 0 then pan else ⟨pan.data.dropLast⟩

/-- `panNoCDStrict`: normalize (a no-op on the digit strings the provider
builds), validate the PAN, strip the check digit. -/
def panNoCDStrict (pan : String) : Except CvvErr String :=
  match ValidatePAN pan with
  | .error e => .error (.badPan e)
  | .ok _ => .ok (stripCheckDigit pan)

/-- `normalizeWidth`: only 3 or 4; anything else falls back to 3. -/
def normalizeWidth (width : Int) : Int := if width = 4 then 4 else 3

/-- Zero-padded decimal rendering (`fmt.Sprintf("%0*d", w, n)`). -/
def padDecimal (w : Nat) (n : Nat) : String :=
  let s := toString n
  ⟨List.replicate (w - s.length) '0' ++ s.data⟩

/-- `hmacTruncatedDecimal`: RFC4226-style dynamic truncation of an
HMAC-SHA256 digest.  The HMAC primitive itself is not re-derived; it is an
explicit function argument `hmacF` from (key, message) to the 32-byte
digest, and every theorem below holds for all `hmacF`. -/
def hmacTruncatedDecimal (hmacF : List Nat → List Nat → List Nat)
    (key msg extra : List Nat) (width : Int) : String :=
  let sum := hmacF key (msg ++ extra)
  let off := sum.getLastD 0 % 16
  let code := sum.getD off 0 % 128 * 16777216 + sum.getD (off + 1) 0 % 256 * 65536 +
    sum.getD (off + 2) 0 % 256 * 256 + sum.getD (off + 3) 0 % 256
  if normalizeWidth width = 4 then padDecimal 4 (code % 10000)
  else padDecimal 3 (code % 1000)

/-- Bytes of an ASCII string. -/
def strBytes (s : String) : List Nat := s.data.map Char.toNat

/-- `StaticCVVDemoStrict`: validations, then domain-separated message
`panNoCD|YYMM|SC|static-v1` through HMAC truncation. -/
def StaticCVVDemoStrict (hmacF : List Nat → List Nat → List Nat)
    (pan expiryYYMM serviceCode : String) (width : Int) (key : List Nat) :
    Except CvvErr String :=
  match ValidateYYMM expiryYYMM with
  | .error e => .error (.badExpiry e)
  | .ok _ =>
    if !validServiceCode serviceCode then .error .badServiceCode
    else
      match panNoCDStrict pan with
      | .error e => .error e
      | .ok pNoCD =>
        let msg := strBytes (pNoCD ++ "|" ++ expiryYYMM ++ "|" ++ serviceCode ++ "|static-v1")
        .ok (hmacTruncatedDecimal hmacF key msg [] (normalizeWidth width))

/-- `normalizeStep`: at least one second, truncated to whole seconds
(`step` is a `time.Duration` in nanoseconds). -/
def normalizeStep (step : Int) : Int :=
  if step < 1000000000 then 1000000000 else step / 1000000000 * 1000000000

/-- Big-endian 8-byte window counter (`binary.BigEndian.PutUint64`), as the
byte list the Go code appends to the HMAC input.  The Go conversion
`uint64(window)` wraps modulo 2^64. -/
def windowBytes (window : Int) : List Nat :=
  let w := (window % (2 ^ 64 : Int)).toNat
  [w / 2 ^ 56 % 256, w / 2 ^ 48 % 256, w / 2 ^ 40 % 256, w / 2 ^ 32 % 256,
   w / 2 ^ 24 % 256, w / 2 ^ 16 % 256, w / 2 ^ 8 % 256, w % 256]

/-- `DynamicCVVWithTTLStrict`: window counter = `now.Unix() / stepSeconds`
(Go integer division truncates toward zero, `Int.tdiv`), TTL =
`stepSeconds - now.Unix() % stepSeconds` with fallback to `stepSeconds`
when that is `≤ 0`.  `nowSec` is `now.Unix()`. -/
def DynamicCVVWithTTLStrict (hmacF : List Nat → List Nat → List Nat)
    (pan expiryYYMM serviceCode : String) (nowSec : Int) (step : Int)
    (width : Int) (key : List Nat) : Except CvvErr (String × Int) :=
  let step1 := normalizeStep step
  let width1 := normalizeWidth width
  match ValidateYYMM expiryYYMM with
  | .error e => .error (.badExpiry e)
  | .ok _ =>
    if !validServiceCode serviceCode then .error .badServiceCode
    else
      match panNoCDStrict pan with
      | .error e => .error e
      | .ok pNoCD =>
        let sec := step1 / 1000000000
        let window := Int.tdiv nowSec sec
        let msg := strBytes (pNoCD ++ "|" ++ expiryYYMM ++ "|" ++ serviceCode ++ "|dynamic-v1")
        let rem := sec - Int.tmod nowSec sec
        let rem := if rem ≤ 0 then sec else rem
        .ok (hmacTruncatedDecimal hmacF key msg (windowBytes window) width1, rem)

/-- The demo provider: it holds whatever key it was handed.
`NewDemoProviderStrict` is a total constructor — it performs no key check,
so construction cannot fail. -/
structure DemoProvider where
  key : List Nat
  deriving DecidableEq, Repr

/-- `security.NewDemoProviderStrict`. -/
def NewDemoProviderStrict (key : List Nat) : DemoProvider := ⟨key⟩

/-- `(*DemoProvider).ComputeCVV2`: the empty-key check is the first thing
the method does, before any validation. -/
def DemoProvider.ComputeCVV2 (hmacF : List Nat → List Nat → List Nat)
    (p : DemoProvider) (panNoCD yymm sc : String) (width : Int) :
    Except CvvErr String :=
  if p.key.length = 0 then .error .keyMissing
  else
    let width1 := normalizeWidth width
    match ValidateYYMM yymm with
    | .error e => .error (.badExpiry e)
    | .ok _ =>
      if !validServiceCode sc then .error .badServiceCode
      else
        match validatePanNoCD panNoCD with
        | .error e => .error e
        | .ok _ =>
          StaticCVVDemoStrict hmacF (buildValidPAN panNoCD) yymm sc width1 p.key

/-- `(*DemoProvider).ComputeDisplayDCVV`: the empty-key check again comes
first; `step ≤ 0` falls back to 30 seconds. -/
def DemoProvider.ComputeDisplayDCVV (hmacF : List Nat → List Nat → List Nat)
    (p : DemoProvider) (panNoCD yymm sc : String) (step : Int) (nowSec : Int)
    (width : Int) : Except CvvErr (String × Int) :=
  if p.key.length = 0 then .error .keyMissing
  else
    let step1 : Int := if step ≤ 0 then 30000000000 else step
    let width1 := normalizeWidth width
    match ValidateYYMM yymm with
    | .error e => .error (.badExpiry e)
    | .ok _ =>
      if !validServiceCode sc then .error .badServiceCode
      else
        match validatePanNoCD panNoCD with
        | .error e => .error e
        | .ok _ =>
          DynamicCVVWithTTLStrict hmacF (buildValidPAN panNoCD) yymm sc nowSec
            (normalizeStep step1) width1 p.key

/-! ## `issuer/repository.go`: the database-backed ledger repository -/

/-- A row of `issuer.accounts` (the columns the operations touch). -/
structure Account where
  accountId : String
  currency : String
  available : Int
  hold : Int
  deriving DecidableEq, Repr

/-- A row of `issuer.auths`. -/
structure Auth where
  authId : String
  accountId : String
  cardId : String
  amount : Int
  currency : String
  status : String
  approvalCode : String
  authorizationCode : String
  stan : Option Int
  merchantName : String
  mcc : String
  holdExpiresAt : Option Int
  deriving DecidableEq, Repr

/-- A row of `issuer.transactions`. -/
structure Txn where
  txId : String
  accountId : String
  cardId : String
  authId : Option String
  amount : Int
  currency : String
  status : String
  deriving DecidableEq, Repr

/-- The ledger database state. -/
structure DB where
  accounts : List Account
  auths : List Auth
  txns : List Txn
  deriving DecidableEq, Repr

/-- Error kinds of the repository operations.  `insufficientFunds` is
`models.ErrInsufficientFunds`; the semantic-mismatch replay path returns
`fmt.Errorf("%w", models.ErrInsufficientFunds)`, which wraps the same
kind (`errors.Is` still matches it), so it maps to the same constructor.
`checkViolation` is a Postgres CHECK-constraint error, `noRows` is
`sql.ErrNoRows` surfaced by `Scan`. -/
inductive LedgerErr where
  | insufficientFunds
  | checkViolation
  | noRows
  | authNotFound
  | badAuthStatus (s : String)
  | currencyMismatch
  | invalidCaptureAmount
  deriving DecidableEq, Repr

/-- The `issuer.accounts` CHECK constraints on one row. -/
def accountRowOK (a : Account) : Bool :=
  decide (0 ≤ a.available) && decide (0 ≤ a.hold)

/-- `UPDATE issuer.accounts SET ... WHERE pred`: applies `f` to every row
matching `pred`; fails with a CHECK violation when any written row breaks
the constraints.  Also returns `RowsAffected`. -/
def updateAccounts (pred : Account → Bool) (f : Account → Account)
    (l : List Account) : Except LedgerErr (List Account × Nat) :=
  if l.all (fun a => !pred a || accountRowOK (f a)) then
    .ok (l.map (fun a => if pred a then f a else a), (l.filter pred).length)
  else .error .checkViolation

/-- The `issuer.auths` CHECK constraint (`amount > 0`) on one row. -/
def authRowOK (au : Auth) : Bool := decide (0 < au.amount)

/-- `UPDATE issuer.auths SET ... WHERE pred`. -/
def updateAuths (pred : Auth → Bool) (f : Auth → Auth) (l : List Auth) :
    Except LedgerErr (List Auth) :=
  if l.all (fun au => !pred au || authRowOK (f au)) then
    .ok (l.map (fun au => if pred au then f au else au))
  else .error .checkViolation

/-- Plain `INSERT INTO issuer.auths` (no conflict target involved). -/
def insertAuth (au : Auth) (l : List Auth) : Except LedgerErr (List Auth) :=
  if authRowOK au then .ok (l ++ [au]) else .error .checkViolation

/-- `INSERT INTO issuer.transactions` (`CHECK (amount <> 0)`). -/
def insertTxn (t : Txn) (l : List Txn) : Except LedgerErr (List Txn) :=
  if t.amount ≠ 0 then .ok (l ++ [t]) else .error .checkViolation

/-- `select ... from issuer.auths where card_id=$1 and stan=$2` — the
conflict target of the partial unique index `(card_id, stan) where stan is
not null`. -/
def findAuthByCardStanRow (s : DB) (cardID : String) (st : Int) : Option Auth :=
  s.auths.find? (fun au => au.cardId == cardID && au.stan == some st)

/-- The conditional balance move of `CreateAuthAndHold`:
`UPDATE issuer.accounts SET available_balance = available_balance - $2,
hold_balance = hold_balance + $2 WHERE account_id=$1 AND
available_balance >= $2`. -/
def holdUpdate (accountID : String) (amount : Int) (accts : List Account) :
    Except LedgerErr (List Account × Nat) :=
  updateAccounts
    (fun a => a.accountId == accountID && decide (amount ≤ a.available))
    (fun a => { a with available := a.available - amount, hold := a.hold + amount })
    accts

/-- `(*Repository).CreateAuthAndHold` (database path).  `newAuthId` stands
for the `gen_random_uuid()` of a fresh row.  Result: on success, the
`(approvalCode, authorizationCode, dup)` triple and the committed state; an
error rolls the transaction back, so the caller keeps the pre-state. -/
def CreateAuthAndHold (s : DB) (accountID cardID : String) (amount : Int)
    (currency approvalCode authorizationCode merchantName mcc : String)
    (stan : Option Int) (newAuthId : String) :
    Except LedgerErr ((String × String × Bool) × DB) :=
  match stan with
  | some st =>
    match findAuthByCardStanRow s cardID st with
    | some existed =>
      -- insert suppressed by ON CONFLICT DO NOTHING: replay path
      if existed.amount ≠ amount ∨ goToUpper existed.currency ≠ goToUpper currency then
        .error .insufficientFunds
      else
        .ok ((existed.approvalCode, existed.authorizationCode, true), s)
    | none =>
      match insertAuth
          { authId := newAuthId, accountId := accountID, cardId := cardID,
            amount := amount, currency := goToUpper currency,
            status := "AUTHORIZED", approvalCode := approvalCode,
            authorizationCode := authorizationCode, stan := some st,
            merchantName := merchantName, mcc := mcc,
            holdExpiresAt := none } s.auths with
      | .error e => .error e
      | .ok auths1 =>
        match holdUpdate accountID amount s.accounts with
        | .error e => .error e
        | .ok (accts1, n) =>
          if n = 0 then .error .insufficientFunds
          else .ok ((approvalCode, authorizationCode, false),
            { s with accounts := accts1, auths := auths1 })
  | none =>
    match holdUpdate accountID amount s.accounts with
    | .error e => .error e
    | .ok (accts1, n) =>
      if n = 0 then .error .insufficientFunds
      else
        match insertAuth
            { authId := newAuthId, accountId := accountID, cardId := cardID,
              amount := amount, currency := goToUpper currency,
              status := "AUTHORIZED", approvalCode := approvalCode,
              authorizationCode := authorizationCode, stan := none,
              merchantName := merchantName, mcc := mcc,
              holdExpiresAt := none } s.auths with
        | .error e => .error e
        | .ok auths1 =>
          .ok ((approvalCode, authorizationCode, false),
            { s with accounts := accts1, auths := auths1 })

/-- `(*Repository).CaptureAuth`.  `newTxId` stands for the
`gen_random_uuid()` of the transaction row. -/
def CaptureAuth (s : DB) (authID : String) (amount : Int) (currency : String)
    (newTxId : String) : Except LedgerErr (Unit × DB) :=
  match s.auths.find? (fun au => au.authId == authID) with
  | none => .error .authNotFound
  | some au =>
    if au.status ≠ "AUTHORIZED" then .error (.badAuthStatus au.status)
    else if goToUpper au.currency ≠ goToUpper currency then .error .currencyMismatch
    else
      let amt := if amount ≤ 0 then au.amount else amount
      if au.amount < amt then .error .invalidCaptureAmount
      else
        match updateAccounts (fun a => a.accountId == au.accountId)
            (fun a => { a with hold := a.hold - amt }) s.accounts with
        | .error e => .error e
        | .ok (accts1, _) =>
          match insertTxn
              { txId := newTxId, accountId := au.accountId, cardId := au.cardId,
                authId := some authID, amount := amt,
                currency := goToUpper currency, status := "CAPTURED" } s.txns with
          | .error e => .error e
          | .ok txns1 =>
            let newStatus := if amt < au.amount then "AUTHORIZED" else "CAPTURED"
            match updateAuths (fun x => x.authId == authID)
                (fun x => { x with status := newStatus }) s.auths with
            | .error e => .error e
            | .ok auths1 =>
              .ok ((), { s with accounts := accts1, auths := auths1, txns := txns1 })

/-- `(*Repository).ReverseAuth`.  Note: as in the source, the held amount
is subtracted from `hold_balance` but **not** credited back to
`available_balance`. -/
def ReverseAuth (s : DB) (authID : String) : Except LedgerErr (Unit × DB) :=
  match s.auths.find? (fun au => au.authId == authID) with
  | none => .error .noRows
  | some au =>
    if au.status ≠ "AUTHORIZED" then .error (.badAuthStatus au.status)
    else
      match updateAccounts (fun a => a.accountId == au.accountId)
          (fun a => { a with hold := a.hold - au.amount }) s.accounts with
      | .error e => .error e
      | .ok (accts1, _) =>
        match updateAuths (fun x => x.authId == authID)
            (fun x => { x with status := "REVERSED" }) s.auths with
        | .error e => .error e
        | .ok auths1 => .ok ((), { s with accounts := accts1, auths := auths1 })

/-- The expired-hold selection of `ReleaseExpiredHolds`:
`status='AUTHORIZED' and hold_expires_at <= now()`, oldest first, at most
`batch` rows. -/
def expiredSelection (s : DB) (now : Int) (batch : Nat) : List Auth :=
  ((s.auths.filter (fun au => au.status == "AUTHORIZED" &&
      match au.holdExpiresAt with
      | some t => decide (t ≤ now)
      | none => false)).mergeSort
    (fun a b => a.holdExpiresAt.getD 0 ≤ b.holdExpiresAt.getD 0)).take batch

/-- Per-account aggregation of the released amounts (the Go
`map[string]int64` — iteration order does not affect the outcome). -/
def aggReleased (sel : List Auth) : List (String × Int) :=
  ((sel.map (fun au => au.accountId)).dedup).map
    (fun id => (id, ((sel.filter (fun au => au.accountId == id)).map
      (fun au => au.amount)).sum))

/-- One `hold_balance` decrement per aggregated account. -/
def applyHoldDecs : List (String × Int) → List Account →
    Except LedgerErr (List Account)
  | [], accts => .ok accts
  | (id, total) :: rest, accts =>
    match updateAccounts (fun a => a.accountId == id)
        (fun a => { a with hold := a.hold - total }) accts with
    | .error e => .error e
    | .ok (accts1, _) => applyHoldDecs rest accts1

/-- `(*Repository).ReleaseExpiredHolds`: select expired AUTHORIZED holds,
subtract the per-account totals from `hold_balance`, mark the selected rows
REVERSED, return the count.  As with `ReverseAuth`, nothing is credited
back to `available_balance`. -/
def ReleaseExpiredHolds (s : DB) (now : Int) (batch : Nat) :
    Except LedgerErr (Nat × DB) :=
  let sel := expiredSelection s now batch
  if sel.isEmpty then .ok (0, s)
  else
    match applyHoldDecs (aggReleased sel) s.accounts with
    | .error e => .error e
    | .ok accts1 =>
      match updateAuths (fun au => sel.any (fun it => it.authId == au.authId))
          (fun au => { au with status := "REVERSED" }) s.auths with
      | .error e => .error e
      | .ok auths1 => .ok (sel.length, { s with accounts := accts1, auths := auths1 })

/-- The account balance invariant of the schema:
`available_balance ≥ 0` and `hold_balance ≥ 0` on every row. -/
def AccountsOK (s : DB) : Prop :=
  ∀ a ∈ s.accounts, 0 ≤ a.available ∧ 0 ≤ a.hold

instance (s : DB) : Decidable (AccountsOK s) := by
  unfold AccountsOK
  infer_instance

/-- The state an operation leaves behind: the committed state on success,
the unchanged pre-state on a rolled-back error. -/
def finalState {α : Type} (s : DB) : Except LedgerErr (α × DB) → DB
  | .ok (_, s1) => s1
  | .error _ => s

/-- A `CreateAuthAndHold` request (for iterating authorization attempts). -/
structure AuthReq where
  accountID : String
  cardID : String
  amount : Int
  currency : String
  approvalCode : String
  authorizationCode : String
  merchantName : String
  mcc : String
  stan : Option Int
  newAuthId : String

/-- Run one authorization attempt: the committed state on success, the
unchanged state on a rolled-back failure. -/
def applyAuthReq (s : DB) (r : AuthReq) : DB :=
  finalState s (CreateAuthAndHold s r.accountID r.cardID r.amount r.currency
    r.approvalCode r.authorizationCode r.merchantName r.mcc r.stan r.newAuthId)

/-- Run any sequence of authorization attempts. -/
def runAuths (reqs : List AuthReq) (s : DB) : DB := reqs.foldl applyAuthReq s

/-! ## Ledger lemmas -/

theorem updateAccounts_preserves {pred f l l2 n}
    (h : updateAccounts pred f l = .ok (l2, n))
    (hl : ∀ a ∈ l, 0 ≤ a.available ∧ 0 ≤ a.hold) :
    ∀ b ∈ l2, 0 ≤ b.available ∧ 0 ≤ b.hold := by
  unfold updateAccounts at h
  split at h
  case isTrue hall =>
    rw [List.all_eq_true] at hall
    cases h
    intro b hb
    rcases List.mem_map.mp hb with ⟨a, ha, rfl⟩
    by_cases hp : pred a
    · have := hall a ha
      rw [hp] at this
      simp only [Bool.not_true, Bool.false_or] at this
      unfold accountRowOK at this
      rw [Bool.and_eq_true, decide_eq_true_iff, decide_eq_true_iff] at this
      rw [if_pos hp]
      exact this
    · rw [if_neg hp]
      exact hl a ha
  case isFalse => cases h

theorem applyHoldDecs_preserves {decs l l2}
    (h : applyHoldDecs decs l = .ok l2)
    (hl : ∀ a ∈ l, 0 ≤ a.available ∧ 0 ≤ a.hold) :
    ∀ b ∈ l2, 0 ≤ b.available ∧ 0 ≤ b.hold := by
  induction decs generalizing l with
  | nil =>
    unfold applyHoldDecs at h
    cases h
    exact hl
  | cons d rest ih =>
    unfold applyHoldDecs at h
    cases hu : updateAccounts (fun a => a.accountId == d.1)
        (fun a => { a with hold := a.hold - d.2 }) l with
    | error e => rw [hu] at h; cases h
    | ok p =>
      rw [hu] at h
      exact ih h (updateAccounts_preserves hu hl)

theorem holdUpdate_preserves {accountID amount l l2 n}
    (h : holdUpdate accountID amount l = .ok (l2, n))
    (hl : ∀ a ∈ l, 0 ≤ a.available ∧ 0 ≤ a.hold) :
    ∀ b ∈ l2, 0 ≤ b.available ∧ 0 ≤ b.hold :=
  updateAccounts_preserves h hl

theorem finalState_ok {α : Type} {s : DB} {r : Except LedgerErr (α × DB)}
    {a : α} {s1 : DB} (h : r = .ok (a, s1)) : finalState s r = s1 := by
  rw [h]; rfl

theorem finalState_error {α : Type} {s : DB} {r : Except LedgerErr (α × DB)}
    {e : LedgerErr} (h : r = .error e) : finalState s r = s := by
  rw [h]; rfl

theorem createAuthAndHold_ok_accounts {s : DB} {accountID cardID : String}
    {amount : Int} {currency ap au mn mc : String} {stan : Option Int}
    {nid : String} {t : String × String × Bool} {s1 : DB}
    (hr : CreateAuthAndHold s accountID cardID amount currency ap au mn mc stan nid
      = .ok (t, s1)) :
    s1.accounts = s.accounts ∨
      ∃ n, holdUpdate accountID amount s.accounts = .ok (s1.accounts, n) := by
  cases stan with
  | some st =>
    cases hf : findAuthByCardStanRow s cardID st with
    | some existed =>
      simp only [CreateAuthAndHold, hf] at hr
      by_cases hd : existed.amount ≠ amount ∨ goToUpper existed.currency ≠ goToUpper currency
      · rw [if_pos hd] at hr
        exact Except.noConfusion hr
      · rw [if_neg hd] at hr
        simp only [Except.ok.injEq, Prod.mk.injEq] at hr
        exact Or.inl (hr.2 ▸ rfl)
    | none =>
      simp only [CreateAuthAndHold, hf] at hr
      cases hi : insertAuth
          { authId := nid, accountId := accountID, cardId := cardID,
            amount := amount, currency := goToUpper currency,
            status := "AUTHORIZED", approvalCode := ap,
            authorizationCode := au, stan := some st,
            merchantName := mn, mcc := mc, holdExpiresAt := none } s.auths with
      | error e => simp only [hi] at hr; exact Except.noConfusion hr
      | ok auths1 =>
        simp only [hi] at hr
        cases hu : holdUpdate accountID amount s.accounts with
        | error e => simp only [hu] at hr; exact Except.noConfusion hr
        | ok p =>
          obtain ⟨accts1, n⟩ := p
          simp only [hu] at hr
          by_cases hn : n = 0
          · rw [if_pos hn] at hr
            exact Except.noConfusion hr
          · rw [if_neg hn] at hr
            simp only [Except.ok.injEq, Prod.mk.injEq] at hr
            refine Or.inr ⟨n, ?_⟩
            rw [← hr.2]
  | none =>
    cases hu : holdUpdate accountID amount s.accounts with
    | error e => simp only [CreateAuthAndHold, hu] at hr; exact Except.noConfusion hr
    | ok p =>
      obtain ⟨accts1, n⟩ := p
      simp only [CreateAuthAndHold, hu] at hr
      by_cases hn : n = 0
      · rw [if_pos hn] at hr
        exact Except.noConfusion hr
      · rw [if_neg hn] at hr
        cases hi : insertAuth
            { authId := nid, accountId := accountID, cardId := cardID,
              amount := amount, currency := goToUpper currency,
              status := "AUTHORIZED", approvalCode := ap,
              authorizationCode := au, stan := none,
              merchantName := mn, mcc := mc, holdExpiresAt := none } s.auths with
        | error e => simp only [hi] at hr; exact Except.noConfusion hr
        | ok auths1 =>
          simp only [hi, Except.ok.injEq, Prod.mk.injEq] at hr
          refine Or.inr ⟨n, ?_⟩
          rw [← hr.2]

theorem createAuthAndHold_preserves (s : DB) (hs : AccountsOK s)
    (accountID cardID : String) (amount : Int) (currency ap au mn mc : String)
    (stan : Option Int) (nid : String) :
    AccountsOK (finalState s
      (CreateAuthAndHold s accountID cardID amount currency ap au mn mc stan nid)) := by
  cases hr : CreateAuthAndHold s accountID cardID amount currency ap au mn mc stan nid with
  | error e => rw [finalState_error rfl]; exact hs
  | ok p =>
    obtain ⟨t, s1⟩ := p
    rw [finalState_ok rfl]
    rcases createAuthAndHold_ok_accounts hr with hsame | ⟨n, hu⟩
    · intro a ha
      exact hs a (hsame ▸ ha)
    · exact holdUpdate_preserves hu hs

theorem captureAuth_preserves (s : DB) (hs : AccountsOK s) (authID : String)
    (amount : Int) (currency txid : String) :
    AccountsOK (finalState s (CaptureAuth s authID amount currency txid)) := by
  cases hfind : s.auths.find? (fun au => au.authId == authID) with
  | none => simp only [CaptureAuth, hfind, finalState]; exact hs
  | some au =>
    by_cases h1 : au.status ≠ "AUTHORIZED"
    · simp only [CaptureAuth, hfind, if_pos h1, finalState]; exact hs
    · by_cases h2 : goToUpper au.currency ≠ goToUpper currency
      · simp only [CaptureAuth, hfind, if_neg h1, if_pos h2, finalState]; exact hs
      · by_cases h3 : au.amount < (if amount ≤ 0 then au.amount else amount)
        · simp only [CaptureAuth, hfind, if_neg h1, if_neg h2, if_pos h3, finalState]
          exact hs
        · cases hup : updateAccounts (fun a => a.accountId == au.accountId)
              (fun a => { a with hold := a.hold - (if amount ≤ 0 then au.amount else amount) })
              s.accounts with
          | error e =>
            simp only [CaptureAuth, hfind, if_neg h1, if_neg h2, if_pos h3, if_neg h3,
              hup, finalState]
            exact hs
          | ok p =>
            obtain ⟨accts1, n⟩ := p
            cases hins : insertTxn
                { txId := txid, accountId := au.accountId, cardId := au.cardId,
                  authId := some authID,
                  amount := (if amount ≤ 0 then au.amount else amount),
                  currency := goToUpper currency, status := "CAPTURED" } s.txns with
            | error e =>
              simp only [CaptureAuth, hfind, if_neg h1, if_neg h2, if_neg h3, hup,
                hins, finalState]
              exact hs
            | ok txns1 =>
              cases hupa : updateAuths (fun x => x.authId == authID)
                  (fun x => { x with status :=
                    if (if amount ≤ 0 then au.amount else amount) < au.amount
                    then "AUTHORIZED" else "CAPTURED" }) s.auths with
              | error e =>
                simp only [CaptureAuth, hfind, if_neg h1, if_neg h2, if_neg h3, hup,
                  hins, hupa, finalState]
                exact hs
              | ok auths1 =>
                simp only [CaptureAuth, hfind, if_neg h1, if_neg h2, if_neg h3, hup,
                  hins, hupa, finalState]
                exact updateAccounts_preserves hup hs

theorem reverseAuth_preserves (s : DB) (hs : AccountsOK s) (authID : String) :
    AccountsOK (finalState s (ReverseAuth s authID)) := by
  cases hfind : s.auths.find? (fun au => au.authId == authID) with
  | none => simp only [ReverseAuth, hfind, finalState]; exact hs
  | some au =>
    by_cases h1 : au.status ≠ "AUTHORIZED"
    · simp only [ReverseAuth, hfind, if_pos h1, finalState]; exact hs
    · cases hup : updateAccounts (fun a => a.accountId == au.accountId)
          (fun a => { a with hold := a.hold - au.amount }) s.accounts with
      | error e =>
        simp only [ReverseAuth, hfind, if_neg h1, hup, finalState]
        exact hs
      | ok p =>
        obtain ⟨accts1, n⟩ := p
        cases hupa : updateAuths (fun x => x.authId == authID)
            (fun x => { x with status := "REVERSED" }) s.auths with
        | error e =>
          simp only [ReverseAuth, hfind, if_neg h1, hup, hupa, finalState]
          exact hs
        | ok auths1 =>
          simp only [ReverseAuth, hfind, if_neg h1, hup, hupa, finalState]
          exact updateAccounts_preserves hup hs

theorem releaseExpiredHolds_preserves (s : DB) (hs : AccountsOK s)
    (now : Int) (batch : Nat) :
    AccountsOK (finalState s (ReleaseExpiredHolds s now batch)) := by
  by_cases hsel : (expiredSelection s now batch).isEmpty
  · simp only [ReleaseExpiredHolds, if_pos hsel, finalState]
    exact hs
  · cases had : applyHoldDecs (aggReleased (expiredSelection s now batch)) s.accounts with
    | error e =>
      simp only [ReleaseExpiredHolds, if_neg hsel, had, finalState]
      exact hs
    | ok accts1 =>
      cases hupa : updateAuths
          (fun au => (expiredSelection s now batch).any (fun it => it.authId == au.authId))
          (fun au => { au with status := "REVERSED" }) s.auths with
      | error e =>
        simp only [ReleaseExpiredHolds, if_neg hsel, had, hupa, finalState]
        exact hs
      | ok auths1 =>
        simp only [ReleaseExpiredHolds, if_neg hsel, had, hupa, finalState]
        exact applyHoldDecs_preserves had hs

theorem runAuths_preserves (reqs : List AuthReq) (s : DB) (hs : AccountsOK s) :
    AccountsOK (runAuths reqs s) := by
  induction reqs generalizing s with
  | nil => exact hs
  | cons r rest ih =>
    exact ih (applyAuthReq s r)
      (createAuthAndHold_preserves s hs r.accountID r.cardID r.amount r.currency
        r.approvalCode r.authorizationCode r.merchantName r.mcc r.stan r.newAuthId)

/-! ## Claim theorems -/

/-- C2: every Ledger Repository operation — `CreateAuthAndHold`,
`CaptureAuth`, `ReverseAuth`, `ReleaseExpiredHolds` — preserves the account
invariant `available_balance ≥ 0 ∧ hold_balance ≥ 0`: from any state
satisfying it, the state after the operation (committed on success,
rolled back on failure) still satisfies it, and in particular
`available_balance` never goes negative over any sequence of authorization
attempts. -/
theorem ledger_ops_preserve_balance_invariant (s : DB) (hs : AccountsOK s) :
    (∀ accountID cardID amount currency ap au mn mc stan nid,
      AccountsOK (finalState s
        (CreateAuthAndHold s accountID cardID amount currency ap au mn mc stan nid))) ∧
    (∀ authID amount currency txid,
      AccountsOK (finalState s (CaptureAuth s authID amount currency txid))) ∧
    (∀ authID, AccountsOK (finalState s (ReverseAuth s authID))) ∧
    (∀ now batch, AccountsOK (finalState s (ReleaseExpiredHolds s now batch))) ∧
    (∀ reqs, AccountsOK (runAuths reqs s)) :=
  ⟨fun accountID cardID amount currency ap au mn mc stan nid =>
      createAuthAndHold_preserves s hs accountID cardID amount currency ap au mn mc stan nid,
   fun authID amount currency txid =>
      captureAuth_preserves s hs authID amount currency txid,
   fun authID => reverseAuth_preserves s hs authID,
   fun now batch => releaseExpiredHolds_preserves s hs now batch,
   fun reqs => runAuths_preserves reqs s hs⟩

/-- Witness for C2 at a concrete state: one account with 5 available / 0
held; an over-limit authorization, a capture, a reversal, a sweep and a
burst of three authorization attempts all keep both balances
non-negative. -/
theorem ledger_ops_preserve_balance_invariant_witness :
    AccountsOK
      { accounts := [{ accountId := "A", currency := "USD", available := 5, hold := 0 }],
        auths := [], txns := [] } ∧
    AccountsOK (runAuths
      [{ accountID := "A", cardID := "C", amount := 3, currency := "USD",
         approvalCode := "AP1", authorizationCode := "AU1", merchantName := "m",
         mcc := "5411", stan := none, newAuthId := "id1" },
       { accountID := "A", cardID := "C", amount := 3, currency := "USD",
         approvalCode := "AP2", authorizationCode := "AU2", merchantName := "m",
         mcc := "5411", stan := none, newAuthId := "id2" },
       { accountID := "A", cardID := "C", amount := 3, currency := "USD",
         approvalCode := "AP3", authorizationCode := "AU3", merchantName := "m",
         mcc := "5411", stan := none, newAuthId := "id3" }]
      { accounts := [{ accountId := "A", currency := "USD", available := 5, hold := 0 }],
        auths := [], txns := [] }) :=
  ⟨by decide,
   (ledger_ops_preserve_balance_invariant
     { accounts := [{ accountId := "A", currency := "USD", available := 5, hold := 0 }],
       auths := [], txns := [] } (by decide)).2.2.2.2 _⟩

/-- C1 (evidence of the code bug): on an account with 100 available / 50
held and a single AUTHORIZED hold of 50, `ReverseAuth` succeeds, sets the
row REVERSED and subtracts 50 from `hold_balance`, but leaves
`available_balance` at 100 — the held amount is never credited back to
`available_balance` (the spec requires 150 after reversal). -/
theorem reverseAuth_does_not_restore_available :
    ReverseAuth
      { accounts := [{ accountId := "acc-1", currency := "USD", available := 100, hold := 50 }],
        auths := [{ authId := "auth-1", accountId := "acc-1", cardId := "card-1",
                    amount := 50, currency := "USD", status := "AUTHORIZED",
                    approvalCode := "AP0001", authorizationCode := "AU0001",
                    stan := some 7, merchantName := "m", mcc := "5411",
                    holdExpiresAt := none }],
        txns := [] } "auth-1"
    = .ok ((),
      { accounts := [{ accountId := "acc-1", currency := "USD", available := 100, hold := 0 }],
        auths := [{ authId := "auth-1", accountId := "acc-1", cardId := "card-1",
                    amount := 50, currency := "USD", status := "REVERSED",
                    approvalCode := "AP0001", authorizationCode := "AU0001",
                    stan := some 7, merchantName := "m", mcc := "5411",
                    holdExpiresAt := none }],
        txns := [] }) := by
  rfl

theorem holdUpdate_no_match {accountID : String} {amount : Int} {l : List Account}
    (hpred : ∀ a ∈ l, (a.accountId == accountID && decide (amount ≤ a.available)) = false) :
    holdUpdate accountID amount l =
      .ok (l.map (fun a =>
        if a.accountId == accountID && decide (amount ≤ a.available)
        then { a with available := a.available - amount, hold := a.hold + amount }
        else a), 0) := by
  unfold holdUpdate updateAccounts
  rw [if_pos]
  · refine congrArg Except.ok (Prod.ext rfl ?_)
    simp only [List.length_eq_zero, List.filter_eq_nil_iff]
    intro a ha
    simp [hpred a ha]
  · rw [List.all_eq_true]
    intro a ha
    simp [hpred a ha]

/-- C4: a `CreateAuthAndHold` call that is not a matching-STAN replay, on
an account whose `available_balance` (non-negative, per the schema
invariant) is below the requested amount, fails with the
insufficient-funds outcome — not a low-level error — and, the transaction
being rolled back, persists nothing. -/
theorem createAuthAndHold_insufficient_funds (s : DB) (accountID cardID : String)
    (amount : Int) (currency ap au mn mc : String) (stan : Option Int) (nid : String)
    (hstan : ∀ st, stan = some st → findAuthByCardStanRow s cardID st = none)
    (hex : ∃ a ∈ s.accounts, a.accountId = accountID)
    (hlow : ∀ a ∈ s.accounts, a.accountId = accountID → a.available < amount)
    (hnn : ∀ a ∈ s.accounts, 0 ≤ a.available) :
    CreateAuthAndHold s accountID cardID amount currency ap au mn mc stan nid
      = .error .insufficientFunds := by
  have hpos : 0 < amount := by
    obtain ⟨a, ha, haid⟩ := hex
    have h1 := hlow a ha haid
    have h2 := hnn a ha
    omega
  have hpred : ∀ a ∈ s.accounts,
      (a.accountId == accountID && decide (amount ≤ a.available)) = false := by
    intro a ha
    by_cases hid : a.accountId = accountID
    · have h1 := hlow a ha hid
      simp [h1, not_le.mpr h1]
    · simp [hid]
  cases stan with
  | some st =>
    have hf := hstan st rfl
    have hins : insertAuth
        { authId := nid, accountId := accountID, cardId := cardID,
          amount := amount, currency := goToUpper currency,
          status := "AUTHORIZED", approvalCode := ap,
          authorizationCode := au, stan := some st,
          merchantName := mn, mcc := mc, holdExpiresAt := none } s.auths
        = .ok (s.auths ++
          [{ authId := nid, accountId := accountID, cardId := cardID,
             amount := amount, currency := goToUpper currency,
             status := "AUTHORIZED", approvalCode := ap,
             authorizationCode := au, stan := some st,
             merchantName := mn, mcc := mc, holdExpiresAt := none }]) := by
      unfold insertAuth authRowOK
      rw [if_pos (by simpa using hpos)]
    simp only [CreateAuthAndHold, hf, hins, holdUpdate_no_match hpred]
    exact if_pos trivial
  | none =>
    simp only [CreateAuthAndHold, holdUpdate_no_match hpred]
    exact if_pos trivial

/-- Witness for C4: an account with 5 available declines a 10-unit
authorization with the insufficient-funds outcome. -/
theorem createAuthAndHold_insufficient_funds_witness :
    CreateAuthAndHold
      { accounts := [{ accountId := "A", currency := "USD", available := 5, hold := 0 }],
        auths := [], txns := [] }
      "A" "C" 10 "USD" "AP1" "AU1" "m" "5411" none "id1"
      = .error .insufficientFunds :=
  createAuthAndHold_insufficient_funds _ "A" "C" 10 "USD" "AP1" "AU1" "m" "5411" none "id1"
    (fun st h => Option.noConfusion h)
    ⟨{ accountId := "A", currency := "USD", available := 5, hold := 0 }, by decide, rfl⟩
    (by decide) (by decide)

/-- C5 (counterexample): the claim asks for an error kind *distinct* from
insufficient funds on a STAN reuse with different amount; the code instead
wraps `models.ErrInsufficientFunds` for the semantic conflict.  On a state
holding an authorization for (card-1, STAN 7) of amount 100, a replay with
amount 200 and a genuine funds shortfall (fresh STAN 8, amount 5000 against
1000 available) both produce the very same error kind. -/
theorem createAuthAndHold_conflict_same_kind_as_funds :
    CreateAuthAndHold
      { accounts := [{ accountId := "acc-1", currency := "USD", available := 1000, hold := 100 }],
        auths := [{ authId := "auth-1", accountId := "acc-1", cardId := "card-1",
                    amount := 100, currency := "USD", status := "AUTHORIZED",
                    approvalCode := "AP0001", authorizationCode := "AU0001",
                    stan := some 7, merchantName := "m", mcc := "5411",
                    holdExpiresAt := none }],
        txns := [] }
      "acc-1" "card-1" 200 "USD" "AP0002" "AU0002" "m" "5411" (some 7) "auth-2"
      = .error .insufficientFunds ∧
    CreateAuthAndHold
      { accounts := [{ accountId := "acc-1", currency := "USD", available := 1000, hold := 100 }],
        auths := [{ authId := "auth-1", accountId := "acc-1", cardId := "card-1",
                    amount := 100, currency := "USD", status := "AUTHORIZED",
                    approvalCode := "AP0001", authorizationCode := "AU0001",
                    stan := some 7, merchantName := "m", mcc := "5411",
                    holdExpiresAt := none }],
        txns := [] }
      "acc-1" "card-1" 5000 "USD" "AP0003" "AU0003" "m" "5411" (some 8) "auth-3"
      = .error .insufficientFunds := by
  constructor
  · rfl
  · rfl

/-- C5 (amended): a `CreateAuthAndHold` call whose (card_id, STAN) matches
an existing authorization but whose amount or currency differs fails with
the insufficient-funds error kind (the code wraps
`models.ErrInsufficientFunds` for the semantic conflict rather than using
a distinct kind), and the rolled-back transaction leaves no balance
mutation and no new row. -/
theorem createAuthAndHold_semantic_conflict (s : DB) (accountID cardID : String)
    (amount : Int) (currency ap au mn mc : String) (st : Int) (nid : String)
    (existed : Auth)
    (hf : findAuthByCardStanRow s cardID st = some existed)
    (hdiff : existed.amount ≠ amount ∨ goToUpper existed.currency ≠ goToUpper currency) :
    CreateAuthAndHold s accountID cardID amount currency ap au mn mc (some st) nid
      = .error .insufficientFunds := by
  simp only [CreateAuthAndHold, hf]
  exact if_pos hdiff

/-- Witness for C5 (amended) at a concrete replay with a different
amount. -/
theorem createAuthAndHold_semantic_conflict_witness :
    CreateAuthAndHold
      { accounts := [{ accountId := "acc-1", currency := "USD", available := 1000, hold := 100 }],
        auths := [{ authId := "auth-1", accountId := "acc-1", cardId := "card-1",
                    amount := 100, currency := "USD", status := "AUTHORIZED",
                    approvalCode := "AP0001", authorizationCode := "AU0001",
                    stan := some 7, merchantName := "m", mcc := "5411",
                    holdExpiresAt := none }],
        txns := [] }
      "acc-1" "card-1" 250 "EUR" "AP0004" "AU0004" "m" "5411" (some 7) "auth-4"
      = .error .insufficientFunds :=
  createAuthAndHold_semantic_conflict _ "acc-1" "card-1" 250 "EUR" "AP0004" "AU0004"
    "m" "5411" 7 "auth-4" _ (by rfl) (by decide)

/-- C3: when a `CreateAuthAndHold` call with a STAN commits a fresh
authorization (`duplicate = false`), any later call with the same
(card_id, STAN) and identical amount and currency is a replay: it returns
the approval and authorization codes stored by the first call together
with `duplicate = true` and commits the state unchanged — the balances are
mutated only by the first call and no second row is inserted.  The
replay's own freshly generated codes and row id are ignored. -/
theorem createAuthAndHold_replay_idempotent (s : DB) (accountID cardID : String)
    (amount : Int) (currency ap au mn mc : String) (st : Int) (nid : String)
    (ap2 au2 mn2 mc2 nid2 : String) (a1 c1 : String) (s1 : DB)
    (h : CreateAuthAndHold s accountID cardID amount currency ap au mn mc (some st) nid
      = .ok ((a1, c1, false), s1)) :
    a1 = ap ∧ c1 = au ∧
    CreateAuthAndHold s1 accountID cardID amount currency ap2 au2 mn2 mc2 (some st) nid2
      = .ok ((ap, au, true), s1) := by
  cases hf : findAuthByCardStanRow s cardID st with
  | some existed =>
    simp only [CreateAuthAndHold, hf] at h
    by_cases hd : existed.amount ≠ amount ∨ goToUpper existed.currency ≠ goToUpper currency
    · rw [if_pos hd] at h
      exact Except.noConfusion h
    · rw [if_neg hd] at h
      simp only [Except.ok.injEq, Prod.mk.injEq] at h
      exact Bool.noConfusion h.1.2.2
  | none =>
    simp only [CreateAuthAndHold, hf] at h
    cases hi : insertAuth
        { authId := nid, accountId := accountID, cardId := cardID,
          amount := amount, currency := goToUpper currency,
          status := "AUTHORIZED", approvalCode := ap,
          authorizationCode := au, stan := some st,
          merchantName := mn, mcc := mc, holdExpiresAt := none } s.auths with
    | error e => simp only [hi] at h; exact Except.noConfusion h
    | ok auths1 =>
      simp only [hi] at h
      cases hu : holdUpdate accountID amount s.accounts with
      | error e => simp only [hu] at h; exact Except.noConfusion h
      | ok p =>
        obtain ⟨accts1, n⟩ := p
        simp only [hu] at h
        by_cases hn : n = 0
        · rw [if_pos hn] at h
          exact Except.noConfusion h
        · rw [if_neg hn] at h
          simp only [Except.ok.injEq, Prod.mk.injEq] at h
          obtain ⟨⟨hap, hau, -⟩, hs1⟩ := h
          have hauths1 : auths1 = s.auths ++
              [{ authId := nid, accountId := accountID, cardId := cardID,
                 amount := amount, currency := goToUpper currency,
                 status := "AUTHORIZED", approvalCode := ap,
                 authorizationCode := au, stan := some st,
                 merchantName := mn, mcc := mc, holdExpiresAt := none }] := by
            unfold insertAuth at hi
            split at hi
            · exact (Except.ok.injEq _ _).mp hi.symm
            · exact Except.noConfusion hi
          have hf1 : findAuthByCardStanRow s1 cardID st = some
              { authId := nid, accountId := accountID, cardId := cardID,
                amount := amount, currency := goToUpper currency,
                status := "AUTHORIZED", approvalCode := ap,
                authorizationCode := au, stan := some st,
                merchantName := mn, mcc := mc, holdExpiresAt := none } := by
            unfold findAuthByCardStanRow at hf ⊢
            rw [← hs1]
            show (auths1.find? _) = _
            rw [hauths1, List.find?_append, hf]
            simp
          refine ⟨hap.symm, hau.symm, ?_⟩
          simp only [CreateAuthAndHold, hf1]
          have hcond : ¬((amount ≠ amount ∨
              goToUpper (goToUpper currency) ≠ goToUpper currency)) := by
            rw [not_or, not_ne_iff, not_ne_iff]
            exact ⟨rfl, goToUpper_idem currency⟩
          rw [if_neg hcond]

/-- Witness for C3: a concrete first authorization (30 of 100 available,
STAN 7) followed by an identical replay, which returns the first call's
codes with `duplicate = true` and leaves the once-mutated state as is. -/
theorem createAuthAndHold_replay_idempotent_witness :
    "AP1" = "AP1" ∧ "AU1" = "AU1" ∧
    CreateAuthAndHold
      { accounts := [{ accountId := "A", currency := "USD", available := 70, hold := 30 }],
        auths := [{ authId := "id1", accountId := "A", cardId := "card-1",
                    amount := 30, currency := "USD", status := "AUTHORIZED",
                    approvalCode := "AP1", authorizationCode := "AU1",
                    stan := some 7, merchantName := "m", mcc := "5411",
                    holdExpiresAt := none }],
        txns := [] }
      "A" "card-1" 30 "USD" "AP9" "AU9" "m2" "0000" (some 7) "id9"
      = .ok (("AP1", "AU1", true),
        { accounts := [{ accountId := "A", currency := "USD", available := 70, hold := 30 }],
          auths := [{ authId := "id1", accountId := "A", cardId := "card-1",
                      amount := 30, currency := "USD", status := "AUTHORIZED",
                      approvalCode := "AP1", authorizationCode := "AU1",
                      stan := some 7, merchantName := "m", mcc := "5411",
                      holdExpiresAt := none }],
          txns := [] }) :=
  createAuthAndHold_replay_idempotent
    { accounts := [{ accountId := "A", currency := "USD", available := 100, hold := 0 }],
      auths := [], txns := [] }
    "A" "card-1" 30 "USD" "AP1" "AU1" "m" "5411" 7 "id1"
    "AP9" "AU9" "m2" "0000" "id9" "AP1" "AU1" _ (by rfl)

theorem updateAccounts_ok {pred : Account → Bool} {f : Account → Account}
    {l : List Account}
    (hall : ∀ a ∈ l, pred a = true → accountRowOK (f a) = true) :
    updateAccounts pred f l =
      .ok (l.map (fun a => if pred a then f a else a), (l.filter pred).length) := by
  unfold updateAccounts
  rw [if_pos]
  rw [List.all_eq_true]
  intro a ha
  cases hp : pred a
  · simp
  · simp [hall a ha hp]

theorem updateAuths_ok {pred : Auth → Bool} {f : Auth → Auth} {l : List Auth}
    (hall : ∀ au ∈ l, pred au = true → authRowOK (f au) = true) :
    updateAuths pred f l = .ok (l.map (fun au => if pred au then f au else au)) := by
  unfold updateAuths
  rw [if_pos]
  rw [List.all_eq_true]
  intro au ha
  cases hp : pred au
  · simp
  · simp [hall au ha hp]

theorem insertTxn_ok {t : Txn} {l : List Txn} (h : t.amount ≠ 0) :
    insertTxn t l = .ok (l ++ [t]) := by
  unfold insertTxn
  rw [if_pos h]

/-- C6: behaviour of `CaptureAuth` on the row found for `authID`, under
the schema row invariants (`amount > 0` on auth rows, non-negative
balances with the held amount covered by `hold_balance`):
a non-AUTHORIZED row fails; a currency mismatch fails; an amount above the
authorized amount fails; `amount ≤ 0` is a full capture — it subtracts the
full authorized amount from `hold_balance`, inserts a CAPTURED transaction
over that amount and sets the row CAPTURED; `0 < amount < authorized` is a
partial capture — it subtracts `amount`, inserts a CAPTURED transaction
over `amount` and leaves the row AUTHORIZED. -/
theorem captureAuth_cases (s : DB) (authID currency txid : String) (au : Auth)
    (hfind : s.auths.find? (fun x => x.authId == authID) = some au) :
    (au.status ≠ "AUTHORIZED" →
      ∀ amount, CaptureAuth s authID amount currency txid
        = .error (.badAuthStatus au.status)) ∧
    (au.status = "AUTHORIZED" → goToUpper au.currency ≠ goToUpper currency →
      ∀ amount, CaptureAuth s authID amount currency txid = .error .currencyMismatch) ∧
    (au.status = "AUTHORIZED" → goToUpper au.currency = goToUpper currency →
      ∀ amount, 0 < amount → au.amount < amount →
      CaptureAuth s authID amount currency txid = .error .invalidCaptureAmount) ∧
    (au.status = "AUTHORIZED" → goToUpper au.currency = goToUpper currency →
      (∀ x ∈ s.auths, x.authId = authID → 0 < x.amount) →
      (∀ a ∈ s.accounts, a.accountId = au.accountId →
        au.amount ≤ a.hold ∧ 0 ≤ a.available) →
      0 < au.amount →
      ∀ amount, amount ≤ 0 →
      CaptureAuth s authID amount currency txid = .ok ((),
        { accounts := s.accounts.map (fun a =>
            if a.accountId == au.accountId
            then { a with hold := a.hold - au.amount } else a),
          auths := s.auths.map (fun x =>
            if x.authId == authID then { x with status := "CAPTURED" } else x),
          txns := s.txns ++
            [{ txId := txid, accountId := au.accountId, cardId := au.cardId,
               authId := some authID, amount := au.amount,
               currency := goToUpper currency, status := "CAPTURED" }] })) ∧
    (au.status = "AUTHORIZED" → goToUpper au.currency = goToUpper currency →
      (∀ x ∈ s.auths, x.authId = authID → 0 < x.amount) →
      (∀ a ∈ s.accounts, a.accountId = au.accountId →
        au.amount ≤ a.hold ∧ 0 ≤ a.available) →
      ∀ amount, 0 < amount → amount < au.amount →
      CaptureAuth s authID amount currency txid = .ok ((),
        { accounts := s.accounts.map (fun a =>
            if a.accountId == au.accountId
            then { a with hold := a.hold - amount } else a),
          auths := s.auths.map (fun x =>
            if x.authId == authID then { x with status := "AUTHORIZED" } else x),
          txns := s.txns ++
            [{ txId := txid, accountId := au.accountId, cardId := au.cardId,
               authId := some authID, amount := amount,
               currency := goToUpper currency, status := "CAPTURED" }] })) := by
  refine ⟨?_, ?_, ?_, ?_, ?_⟩
  · intro h1 amount
    simp only [CaptureAuth, hfind, if_pos h1]
  · intro h1 h2 amount
    simp only [CaptureAuth, hfind, if_neg (not_ne_iff.mpr h1), if_pos h2]
  · intro h1 h2 amount hpos hover
    have hamt : (if amount ≤ 0 then au.amount else amount) = amount :=
      if_neg (not_le.mpr hpos)
    simp only [CaptureAuth, hfind, if_neg (not_ne_iff.mpr h1),
      if_neg (not_ne_iff.mpr h2), hamt, if_pos hover]
  · intro h1 h2 hall hacc hpos amount hle
    have hamt : (if amount ≤ 0 then au.amount else amount) = au.amount := if_pos hle
    have hup : updateAccounts (fun a => a.accountId == au.accountId)
        (fun a => { a with hold := a.hold - au.amount }) s.accounts
        = .ok (s.accounts.map (fun a =>
            if a.accountId == au.accountId
            then { a with hold := a.hold - au.amount } else a),
          (s.accounts.filter (fun a => a.accountId == au.accountId)).length) := by
      refine updateAccounts_ok ?_
      intro a ha hp
      have := hacc a ha (by simpa using hp)
      simp only [accountRowOK, Bool.and_eq_true, decide_eq_true_iff]
      constructor
      · exact this.2
      · omega
    have htx : insertTxn
        { txId := txid, accountId := au.accountId, cardId := au.cardId,
          authId := some authID, amount := au.amount,
          currency := goToUpper currency, status := "CAPTURED" } s.txns
        = .ok (s.txns ++
            [{ txId := txid, accountId := au.accountId, cardId := au.cardId,
               authId := some authID, amount := au.amount,
               currency := goToUpper currency, status := "CAPTURED" }]) :=
      insertTxn_ok (by simpa using Int.ne_of_gt hpos)
    have hua : updateAuths (fun x => x.authId == authID)
        (fun x => { x with status := "CAPTURED" }) s.auths
        = .ok (s.auths.map (fun x =>
            if x.authId == authID then { x with status := "CAPTURED" } else x)) := by
      refine updateAuths_ok ?_
      intro x hx hp
      have := hall x hx (by simpa using hp)
      simpa [authRowOK] using this
    have hstat : (if au.amount < au.amount then "AUTHORIZED" else "CAPTURED")
        = "CAPTURED" := if_neg (lt_irrefl _)
    simp only [CaptureAuth, hfind, if_neg (not_ne_iff.mpr h1),
      if_neg (not_ne_iff.mpr h2), hamt, if_neg (lt_irrefl au.amount),
      hstat, hup, htx, hua]
  · intro h1 h2 hall hacc amount hpos hlt
    have hamt : (if amount ≤ 0 then au.amount else amount) = amount :=
      if_neg (not_le.mpr hpos)
    have hup : updateAccounts (fun a => a.accountId == au.accountId)
        (fun a => { a with hold := a.hold - amount }) s.accounts
        = .ok (s.accounts.map (fun a =>
            if a.accountId == au.accountId
            then { a with hold := a.hold - amount } else a),
          (s.accounts.filter (fun a => a.accountId == au.accountId)).length) := by
      refine updateAccounts_ok ?_
      intro a ha hp
      have h3 := hacc a ha (by simpa using hp)
      simp only [accountRowOK, Bool.and_eq_true, decide_eq_true_iff]
      constructor
      · exact h3.2
      · have := h3.1
        omega
    have htx : insertTxn
        { txId := txid, accountId := au.accountId, cardId := au.cardId,
          authId := some authID, amount := amount,
          currency := goToUpper currency, status := "CAPTURED" } s.txns
        = .ok (s.txns ++
            [{ txId := txid, accountId := au.accountId, cardId := au.cardId,
               authId := some authID, amount := amount,
               currency := goToUpper currency, status := "CAPTURED" }]) :=
      insertTxn_ok (by simpa using Int.ne_of_gt hpos)
    have hua : updateAuths (fun x => x.authId == authID)
        (fun x => { x with status := "AUTHORIZED" }) s.auths
        = .ok (s.auths.map (fun x =>
            if x.authId == authID then { x with status := "AUTHORIZED" } else x)) := by
      refine updateAuths_ok ?_
      intro x hx hp
      have := hall x hx (by simpa using hp)
      simpa [authRowOK] using this
    have hstat : (if amount < au.amount then "AUTHORIZED" else "CAPTURED")
        = "AUTHORIZED" := if_pos hlt
    simp only [CaptureAuth, hfind, if_neg (not_ne_iff.mpr h1),
      if_neg (not_ne_iff.mpr h2), hamt, if_neg (not_lt.mpr (le_of_lt hlt)),
      hstat, hup, htx, hua]

/-- Witness for C6: a concrete full capture (`amount = 0`) of a 50-unit
AUTHORIZED hold moves 50 out of `hold_balance`, records a CAPTURED
transaction of 50 and sets the row CAPTURED. -/
theorem captureAuth_cases_witness :
    CaptureAuth
      { accounts := [{ accountId := "A", currency := "USD", available := 100, hold := 50 }],
        auths := [{ authId := "auth-1", accountId := "A", cardId := "card-1",
                    amount := 50, currency := "USD", status := "AUTHORIZED",
                    approvalCode := "AP1", authorizationCode := "AU1",
                    stan := some 7, merchantName := "m", mcc := "5411",
                    holdExpiresAt := none }],
        txns := [] } "auth-1" 0 "USD" "tx-1"
    = .ok ((),
      { accounts := [{ accountId := "A", currency := "USD", available := 100, hold := 0 }],
        auths := [{ authId := "auth-1", accountId := "A", cardId := "card-1",
                    amount := 50, currency := "USD", status := "CAPTURED",
                    approvalCode := "AP1", authorizationCode := "AU1",
                    stan := some 7, merchantName := "m", mcc := "5411",
                    holdExpiresAt := none }],
        txns := [{ txId := "tx-1", accountId := "A", cardId := "card-1",
                   authId := some "auth-1", amount := 50, currency := "USD",
                   status := "CAPTURED" }] }) :=
  (captureAuth_cases
    { accounts := [{ accountId := "A", currency := "USD", available := 100, hold := 50 }],
      auths := [{ authId := "auth-1", accountId := "A", cardId := "card-1",
                  amount := 50, currency := "USD", status := "AUTHORIZED",
                  approvalCode := "AP1", authorizationCode := "AU1",
                  stan := some 7, merchantName := "m", mcc := "5411",
                  holdExpiresAt := none }],
      txns := [] } "auth-1" "USD" "tx-1" _ rfl).2.2.2.1 rfl rfl
    (by decide) (by decide) (by decide) 0 (by decide)

/-- C7 (counterexample): constructing the demo provider with an empty key
does not fail — `NewDemoProviderStrict` is total and simply stores the
empty key — and the missing-key failure instead surfaces on the first
`ComputeCVV2` / `ComputeDisplayDCVV` call (here with a fixed all-zero
HMAC primitive and otherwise valid inputs). -/
theorem demoProvider_empty_key_construction_succeeds :
    NewDemoProviderStrict [] = { key := [] } ∧
    DemoProvider.ComputeCVV2 (fun _ _ => List.replicate 32 0)
      (NewDemoProviderStrict []) "424242424242" "3012" "101" 3
      = .error .keyMissing ∧
    DemoProvider.ComputeDisplayDCVV (fun _ _ => List.replicate 32 0)
      (NewDemoProviderStrict []) "424242424242" "3012" "101" 30000000000 0 3
      = .error .keyMissing :=
  ⟨rfl, rfl, rfl⟩

/-- C7 (amended): provider construction is total and never fails, key or
no key; instead, for an empty key every `ComputeCVV2` and every
`ComputeDisplayDCVV` call fails with the missing-key error before any
other processing, for any HMAC primitive and any arguments. -/
theorem demoProvider_empty_key_fails_at_call (key : List Nat) (hkey : key = [])
    (hmacF : List Nat → List Nat → List Nat) (panNoCD yymm sc : String)
    (width step nowSec : Int) :
    NewDemoProviderStrict key = { key := key } ∧
    DemoProvider.ComputeCVV2 hmacF (NewDemoProviderStrict key) panNoCD yymm sc width
      = .error .keyMissing ∧
    DemoProvider.ComputeDisplayDCVV hmacF (NewDemoProviderStrict key) panNoCD yymm sc
      step nowSec width = .error .keyMissing := by
  subst hkey
  exact ⟨rfl, rfl, rfl⟩

/-- Witness for C7 (amended) at concrete arguments. -/
theorem demoProvider_empty_key_fails_at_call_witness :
    NewDemoProviderStrict [] = { key := [] } ∧
    DemoProvider.ComputeCVV2 (fun _ m => m) (NewDemoProviderStrict [])
      "400000000000" "2807" "000" 4 = .error .keyMissing ∧
    DemoProvider.ComputeDisplayDCVV (fun _ m => m) (NewDemoProviderStrict [])
      "400000000000" "2807" "000" 1000000000 123 4 = .error .keyMissing :=
  demoProvider_empty_key_fails_at_call [] rfl (fun _ m => m)
    "400000000000" "2807" "000" 4 1000000000 123

theorem goDate_next (y m : Int) (loc : GoLocation) (h1 : 1 ≤ m) (h2 : m ≤ 12) :
    goDate y (m + 1) 1 loc =
      firstInstantOfMonth (followingMonth y m).1 (followingMonth y m).2 loc := by
  unfold goDate firstInstantOfMonth
  have e1 : y + (m + 1 - 1) / 12 = (followingMonth y m).1 := by
    unfold followingMonth
    split_ifs with hm <;> omega
  have e2 : (m + 1 - 1) % 12 + 1 = (followingMonth y m).2 := by
    unfold followingMonth
    split_ifs with hm <;> omega
  rw [e1, e2]

/-- C10: for every valid YYMM string, `ParseYYMMEndOfMonth` returns the
first instant of the *following* month in the given location minus one
nanosecond, and `IsExpired` is true exactly when the queried instant is
strictly after it (false at the instant itself and at every earlier
time). -/
theorem parseYYMMEndOfMonth_spec (yymm : String) (loc : GoLocation)
    (h : ValidateYYMM yymm = .ok ()) :
    ParseYYMMEndOfMonth yymm loc =
      .ok (firstInstantOfMonth
        (followingMonth
          (2000 + (digitVal (yymm.data.getD 0 ' ') * 10 + digitVal (yymm.data.getD 1 ' ') : Nat))
          ((digitVal (yymm.data.getD 2 ' ') * 10 + digitVal (yymm.data.getD 3 ' ') : Nat))).1
        (followingMonth
          (2000 + (digitVal (yymm.data.getD 0 ' ') * 10 + digitVal (yymm.data.getD 1 ' ') : Nat))
          ((digitVal (yymm.data.getD 2 ' ') * 10 + digitVal (yymm.data.getD 3 ' ') : Nat))).2
        loc - 1) ∧
    ∀ t : Int, IsExpired yymm t loc =
      .ok (decide (firstInstantOfMonth
        (followingMonth
          (2000 + (digitVal (yymm.data.getD 0 ' ') * 10 + digitVal (yymm.data.getD 1 ' ') : Nat))
          ((digitVal (yymm.data.getD 2 ' ') * 10 + digitVal (yymm.data.getD 3 ' ') : Nat))).1
        (followingMonth
          (2000 + (digitVal (yymm.data.getD 0 ' ') * 10 + digitVal (yymm.data.getD 1 ' ') : Nat))
          ((digitVal (yymm.data.getD 2 ' ') * 10 + digitVal (yymm.data.getD 3 ' ') : Nat))).2
        loc - 1 < t)) := by
  have hmm : 1 ≤ digitVal (yymm.data.getD 2 ' ') * 10 + digitVal (yymm.data.getD 3 ' ') ∧
      digitVal (yymm.data.getD 2 ' ') * 10 + digitVal (yymm.data.getD 3 ' ') ≤ 12 := by
    unfold ValidateYYMM at h
    split_ifs at h with h1 h2 h3
    push_neg at h3
    omega
  have hfirst : ParseYYMMEndOfMonth yymm loc =
      .ok (firstInstantOfMonth
        (followingMonth
          (2000 + (digitVal (yymm.data.getD 0 ' ') * 10 + digitVal (yymm.data.getD 1 ' ') : Nat))
          ((digitVal (yymm.data.getD 2 ' ') * 10 + digitVal (yymm.data.getD 3 ' ') : Nat))).1
        (followingMonth
          (2000 + (digitVal (yymm.data.getD 0 ' ') * 10 + digitVal (yymm.data.getD 1 ' ') : Nat))
          ((digitVal (yymm.data.getD 2 ' ') * 10 + digitVal (yymm.data.getD 3 ' ') : Nat))).2
        loc - 1) := by
    simp only [ParseYYMMEndOfMonth, h]
    rw [show ((2000 : Int) +
        (digitVal (yymm.data.getD 0 ' ') * 10 + digitVal (yymm.data.getD 1 ' ') : Nat))
      = (2000 + (digitVal (yymm.data.getD 0 ' ') * 10 + digitVal (yymm.data.getD 1 ' ') : Nat) : Nat)
      from by push_cast; ring] at *
    rw [goDate_next _ _ loc (by exact_mod_cast hmm.1) (by exact_mod_cast hmm.2)]
  refine ⟨hfirst, fun t => ?_⟩
  simp only [IsExpired, hfirst]

/-- Witness for C10 at the spec's own vector: "3002" in UTC ends at
2030-02-28T23:59:59.999999999Z (epoch nanoseconds 1898553599999999999,
2030 not being a leap year); `IsExpired` is false at that instant and true
one nanosecond later. -/
theorem parseYYMMEndOfMonth_spec_witness :
    ValidateYYMM "3002" = .ok () ∧
    ParseYYMMEndOfMonth "3002" ⟨0⟩ = .ok 1898553599999999999 ∧
    IsExpired "3002" 1898553599999999999 ⟨0⟩ = .ok false ∧
    IsExpired "3002" 1898553600000000000 ⟨0⟩ = .ok true := by
  refine ⟨rfl, ?_, ?_, ?_⟩
  · exact (parseYYMMEndOfMonth_spec "3002" ⟨0⟩ rfl).1
  · exact (parseYYMMEndOfMonth_spec "3002" ⟨0⟩ rfl).2 1898553599999999999
  · exact (parseYYMMEndOfMonth_spec "3002" ⟨0⟩ rfl).2 1898553600000000000

theorem randomDigits_all_accepted {bs : List Nat} {n : Nat}
    (hgood : ∀ b ∈ bs, b < 250) (hlen : n ≤ bs.length) :
    randomDigits n bs = some ((bs.take n).map (· % 10), bs.drop n) := by
  induction n generalizing bs with
  | zero => simp [randomDigits]
  | succ n ih =>
    cases bs with
    | nil => simp at hlen
    | cons b rest =>
      have hb : b < 250 := hgood b (List.mem_cons_self b rest)
      rw [randomDigits, if_pos hb,
        ih (fun x hx => hgood x (List.mem_cons_of_mem b hx)) (by simpa using hlen)]
      simp

theorem generatePANWithLength_consumes (bin : String) (totalLen : Int)
    (sequence : String) (bytes : List Nat)
    (hbin : ValidateBIN bin = .ok ())
    (hlen : 13 ≤ totalLen ∧ totalLen ≤ 19)
    (hfill : 0 < totalLen - 1 - (bin.length : Int))
    (hseq : goTrimSpace sequence = "" ∨
      (IsDigits (goTrimSpace sequence) = true ∧
        ((goTrimSpace sequence).length : Int) ≤ totalLen - 1 - (bin.length : Int)))
    (hgood : ∀ b ∈ bytes, b < 250)
    (hcount : (totalLen - 1 - (bin.length : Int)).toNat ≤ bytes.length) :
    ∃ pan, GeneratePANWithLength bin totalLen sequence bytes
      = .ok (pan, bytes.drop (totalLen - 1 - (bin.length : Int)).toNat) := by
  have hc1 : ¬(goTrimSpace sequence ≠ "" ∧ ¬IsDigits (goTrimSpace sequence) = true) := by
    rcases hseq with hemp | ⟨hdig, -⟩
    · exact fun hx => hx.1 hemp
    · exact fun hx => hx.2 hdig
  have hc2 : ¬(goTrimSpace sequence ≠ "" ∧
      totalLen - 1 - (bin.length : Int) < ((goTrimSpace sequence).length : Int)) := by
    rcases hseq with hemp | ⟨-, hl⟩
    · exact fun hx => hx.1 hemp
    · exact fun hx => absurd hx.2 (by omega)
  refine ⟨?_, ?_⟩
  case refine_2 =>
    simp only [GeneratePANWithLength, hbin]
    rw [if_neg (by omega), if_neg (by omega)]
    rw [if_neg hc1, if_neg hc2]
    rw [randomDigits_all_accepted hgood hcount]
    exact rfl

theorem generateUniquePANLoop_all_used (bin : String) (totalLen : Int)
    (sequence : String) (mr : Int)
    (hbin : ValidateBIN bin = .ok ())
    (hlen : 13 ≤ totalLen ∧ totalLen ≤ 19)
    (hfill : 0 < totalLen - 1 - (bin.length : Int))
    (hseq : goTrimSpace sequence = "" ∨
      (IsDigits (goTrimSpace sequence) = true ∧
        ((goTrimSpace sequence).length : Int) ≤ totalLen - 1 - (bin.length : Int))) :
    ∀ (n : Nat) (bytes : List Nat), (∀ b ∈ bytes, b < 250) →
      n * (totalLen - 1 - (bin.length : Int)).toNat ≤ bytes.length →
      (generateUniquePANLoop bin totalLen sequence (some (fun _ => true)) mr n bytes).1
          = .error (.exhausted mr) ∧
        (generateUniquePANLoop bin totalLen sequence (some (fun _ => true)) mr n bytes).2.length
          = n := by
  intro n
  induction n with
  | zero => intro bytes _ _; exact ⟨rfl, rfl⟩
  | succ n ih =>
    intro bytes hgood hcount
    have hmul : (n + 1) * (totalLen - 1 - (bin.length : Int)).toNat
        = n * (totalLen - 1 - (bin.length : Int)).toNat
          + (totalLen - 1 - (bin.length : Int)).toNat := Nat.succ_mul n _
    obtain ⟨pan, hgen⟩ := generatePANWithLength_consumes bin totalLen sequence bytes
      hbin hlen hfill hseq hgood (by omega)
    have hrest := ih (bytes.drop (totalLen - 1 - (bin.length : Int)).toNat)
      (fun b hb => hgood b (List.drop_subset _ _ hb))
      (by rw [List.length_drop]; omega)
    rw [generateUniquePANLoop, hgen]
    simp only [if_pos rfl]
    exact ⟨hrest.1, by simpa using hrest.2⟩

theorem generateUniquePANLoop_first_unused (bin : String) (totalLen : Int)
    (sequence : String) (mr : Int) (f : String → Bool) :
    ∀ (n : Nat) (bytes : List Nat) (pan : String),
      (generateUniquePANLoop bin totalLen sequence (some f) mr n bytes).1 = .ok pan →
      f pan = false ∧
        (generateUniquePANLoop bin totalLen sequence (some f) mr n bytes).2.getLast?
          = some pan ∧
        ∀ q ∈ (generateUniquePANLoop bin totalLen sequence (some f) mr n bytes).2.dropLast,
          f q = true := by
  intro n
  induction n with
  | zero => intro bytes pan h; exact Except.noConfusion h
  | succ n ih =>
    intro bytes pan h
    rw [generateUniquePANLoop] at h ⊢
    cases hgen : GeneratePANWithLength bin totalLen sequence bytes with
    | error e =>
      rw [hgen] at h
      exact Except.noConfusion h
    | ok p =>
      obtain ⟨q, rest⟩ := p
      rw [hgen] at h
      cases hfq : f q with
      | true =>
        simp only [hfq, eq_self_iff_true, if_true] at h ⊢
        have hr := ih rest pan h
        have hne : (generateUniquePANLoop bin totalLen sequence (some f) mr n rest).2 ≠ [] := by
          intro hnil
          rw [hnil] at hr
          exact Option.noConfusion hr.2.1
        refine ⟨hr.1, ?_, ?_⟩
        · rw [List.getLast?_cons, hr.2.1]
          cases hcons : (generateUniquePANLoop bin totalLen sequence (some f) mr n rest).2 with
          | nil => exact absurd hcons hne
          | cons y ys =>
            rw [hcons] at hr
            simp [List.getLast?_cons] at hr
            simp [List.getLast?_cons, hr.2.1]
        · intro x hx
          rw [List.dropLast_cons_of_ne_nil hne] at hx
          rcases List.mem_cons.mp hx with rfl | hx2
          · exact hfq
          · exact hr.2.2 x hx2
      | false =>
        simp only [hfq] at h ⊢
        rw [if_neg (by simp)] at h ⊢
        cases h
        exact ⟨hfq, rfl, by intro x hx; simp at hx⟩

/-- C8: `GenerateUniquePAN` on a valid BIN, total length and sequence
override, with enough acceptable random bytes: (a) with an `exists`
callback that always reports the PAN as used, it makes exactly
`maxRetries + 1` generation attempts — `maxRetries` taken as 5 when the
given value is `≤ 0` — and fails with the exhaustion error; (b) whenever
it succeeds with some callback `f`, the returned PAN is the first one `f`
reported unused: every earlier generated PAN was reported used. -/
theorem generateUniquePAN_retry_spec (bin : String) (totalLen : Int)
    (sequence : String) (maxRetries : Int) (bytes : List Nat)
    (hbin : ValidateBIN bin = .ok ())
    (hlen : 13 ≤ totalLen ∧ totalLen ≤ 19)
    (hfill : 0 < totalLen - 1 - (bin.length : Int))
    (hseq : goTrimSpace sequence = "" ∨
      (IsDigits (goTrimSpace sequence) = true ∧
        ((goTrimSpace sequence).length : Int) ≤ totalLen - 1 - (bin.length : Int)))
    (hgood : ∀ b ∈ bytes, b < 250)
    (hcount : ((if maxRetries ≤ 0 then 5 else maxRetries).toNat + 1)
        * (totalLen - 1 - (bin.length : Int)).toNat ≤ bytes.length) :
    (GenerateUniquePAN bin totalLen sequence maxRetries (some (fun _ => true)) bytes
        = .error (.exhausted (if maxRetries ≤ 0 then 5 else maxRetries)) ∧
      (generateUniquePANLoop bin totalLen sequence (some (fun _ => true))
          (if maxRetries ≤ 0 then 5 else maxRetries)
          ((if maxRetries ≤ 0 then 5 else maxRetries).toNat + 1) bytes).2.length
        = (if maxRetries ≤ 0 then 5 else maxRetries).toNat + 1) ∧
    (∀ (f : String → Bool) (pan : String),
      GenerateUniquePAN bin totalLen sequence maxRetries (some f) bytes = .ok pan →
      f pan = false ∧
        (generateUniquePANLoop bin totalLen sequence (some f)
            (if maxRetries ≤ 0 then 5 else maxRetries)
            ((if maxRetries ≤ 0 then 5 else maxRetries).toNat + 1) bytes).2.getLast?
          = some pan ∧
        ∀ q ∈ (generateUniquePANLoop bin totalLen sequence (some f)
            (if maxRetries ≤ 0 then 5 else maxRetries)
            ((if maxRetries ≤ 0 then 5 else maxRetries).toNat + 1) bytes).2.dropLast,
          f q = true) := by
  constructor
  · exact generateUniquePANLoop_all_used bin totalLen sequence _ hbin hlen hfill hseq
      ((if maxRetries ≤ 0 then 5 else maxRetries).toNat + 1) bytes hgood hcount
  · intro f pan h
    exact generateUniquePANLoop_first_unused bin totalLen sequence _ f
      ((if maxRetries ≤ 0 then 5 else maxRetries).toNat + 1) bytes pan h

/-- Witness for C8: BIN "421234", total length 16, sequence override "99",
`maxRetries = 0` (defaulting to 5), an always-true callback and 54 bytes
of acceptable randomness: 6 attempts are made before the exhaustion
error; and with a callback that is false on everything, the very first
PAN comes back. -/
theorem generateUniquePAN_retry_spec_witness :
    (GenerateUniquePAN "421234" 16 "99" 0 (some (fun _ => true)) (List.replicate 54 7)
        = .error (.exhausted 5) ∧
      (generateUniquePANLoop "421234" 16 "99" (some (fun _ => true)) 5 6
        (List.replicate 54 7)).2.length = 6) ∧
    (GenerateUniquePAN "421234" 16 "99" 0 (some (fun _ => false)) (List.replicate 54 7)
        = .ok "4212347777777997" →
      (fun _ => false) "4212347777777997" = false) := by
  constructor
  · exact (generateUniquePAN_retry_spec "421234" 16 "99" 0 (List.replicate 54 7)
      rfl (by decide) (by decide) (by decide) (by decide) (by decide)).1
  · intro h
    exact ((generateUniquePAN_retry_spec "421234" 16 "99" 0 (List.replicate 54 7)
      rfl (by decide) (by decide) (by decide) (by decide) (by decide)).2
      (fun _ => false) "4212347777777997" h).1

theorem luhnSumRev_append (xs ys : List Nat) (b : Bool) :
    luhnSumRev (xs ++ ys) b =
      luhnSumRev xs b + luhnSumRev ys (if xs.length % 2 = 0 then b else !b) := by
  induction xs generalizing b with
  | nil => simp [luhnSumRev]
  | cons d ds ih =>
    simp only [List.cons_append, luhnSumRev, List.length_cons, List.append_eq]
    rw [ih (!b)]
    have hflag : (if ds.length % 2 = 0 then !b else !(!b))
        = (if (ds.length + 1) % 2 = 0 then b else !b) := by
      by_cases hp : ds.length % 2 = 0
      · rw [if_pos hp, if_neg (by omega)]
      · rw [if_neg hp, if_pos (by omega), Bool.not_not]
    rw [hflag, Nat.add_assoc]

theorem isDigitChar_toNat {c : Char} (h : isDigitChar c = true) :
    48 ≤ c.toNat ∧ c.toNat ≤ 57 := by
  unfold isDigitChar at h
  rw [Bool.and_eq_true, decide_eq_true_iff, decide_eq_true_iff] at h
  exact h

theorem digitVal_lt_ten {c : Char} (h : isDigitChar c = true) : digitVal c < 10 := by
  have := isDigitChar_toNat h
  unfold digitVal
  omega

theorem char_eq_of_toNat_eq {c d : Char} (h : c.toNat = d.toNat) : c = d := by
  have hc := Char.ofNat_toNat c
  rw [h, Char.ofNat_toNat d] at hc
  exact hc.symm

theorem digitVal_injective {c d : Char} (hc : isDigitChar c = true)
    (hd : isDigitChar d = true) (h : digitVal c = digitVal d) : c = d := by
  have h1 := isDigitChar_toNat hc
  have h2 := isDigitChar_toNat hd
  refine char_eq_of_toNat_eq ?_
  unfold digitVal at h
  omega

theorem digitChar_toNat {d : Nat} (h : d < 10) : (digitChar d).toNat = 48 + d :=
  char_toNat_ofNat_valid _ (Or.inl (by omega))

theorem isDigitChar_digitChar {d : Nat} (h : d < 10) :
    isDigitChar (digitChar d) = true := by
  unfold isDigitChar
  rw [digitChar_toNat h]
  rw [Bool.and_eq_true, decide_eq_true_iff, decide_eq_true_iff]
  omega

theorem digitChar_injective {d e : Nat} (hd : d < 10) (he : e < 10)
    (h : digitChar d = digitChar e) : d = e := by
  have h1 := digitChar_toNat hd
  have h2 := digitChar_toNat he
  rw [h, h2] at h1
  omega

theorem luhnCheckDigitN_lt_ten (body : String) : luhnCheckDigitN body < 10 :=
  Nat.mod_lt _ (by norm_num)

theorem luhnDouble_lt_ten : ∀ d < 10, luhnDouble d < 10 := by decide

theorem luhnDouble_injOn : ∀ d < 10, ∀ e < 10, d ≠ e → luhnDouble d ≠ luhnDouble e := by
  decide

theorem luhnCheckDigitN_flip (pre suf : List Char) (c c2 : Char)
    (hc : isDigitChar c = true) (hc2 : isDigitChar c2 = true) (hne : c2 ≠ c) :
    luhnCheckDigitN ⟨pre ++ c :: suf⟩ ≠ luhnCheckDigitN ⟨pre ++ c2 :: suf⟩ := by
  have hrev : ∀ x : Char, (List.map digitVal (pre ++ x :: suf)).reverse
      = (List.map digitVal suf).reverse ++
        (digitVal x :: (List.map digitVal pre).reverse) := by
    intro x
    simp [List.reverse_append]
  unfold luhnCheckDigitN digitsOf
  show (10 - luhnSumRev (List.map digitVal (pre ++ c :: suf)).reverse true % 10) % 10
    ≠ (10 - luhnSumRev (List.map digitVal (pre ++ c2 :: suf)).reverse true % 10) % 10
  rw [hrev c, hrev c2]
  rw [luhnSumRev_append _ _ true, luhnSumRev_append _ _ true]
  simp only [luhnSumRev]
  have hdc := digitVal_lt_ten hc
  have hdc2 := digitVal_lt_ten hc2
  have hdne : digitVal c2 ≠ digitVal c := fun h => hne (digitVal_injective hc2 hc h)
  set fl := if (List.map digitVal suf).reverse.length % 2 = 0 then true else !true with hfl
  have hcb : (if fl then luhnDouble (digitVal c) else digitVal c) < 10 := by
    cases fl
    · simpa using hdc
    · simpa using luhnDouble_lt_ten _ hdc
  have hcb2 : (if fl then luhnDouble (digitVal c2) else digitVal c2) < 10 := by
    cases fl
    · simpa using hdc2
    · simpa using luhnDouble_lt_ten _ hdc2
  have hcne : (if fl then luhnDouble (digitVal c) else digitVal c)
      ≠ (if fl then luhnDouble (digitVal c2) else digitVal c2) := by
    cases fl
    · simpa using fun h => hdne h.symm
    · simpa using luhnDouble_injOn _ hdc _ hdc2 (fun h => hdne h.symm)
  omega

theorem validatePAN_generated (bodyL : List Char) (hd : bodyL.all isDigitChar = true)
    (hlen1 : 12 ≤ bodyL.length) (hlen2 : bodyL.length ≤ 18) :
    ValidatePAN ⟨bodyL ++ [digitChar (luhnCheckDigitN ⟨bodyL⟩)]⟩ = .ok () := by
  have hdig : IsDigits ⟨bodyL ++ [digitChar (luhnCheckDigitN ⟨bodyL⟩)]⟩ = true := by
    unfold IsDigits
    show (bodyL ++ [digitChar (luhnCheckDigitN ⟨bodyL⟩)]).all isDigitChar = true
    rw [List.all_append, hd]
    simp [isDigitChar_digitChar (luhnCheckDigitN_lt_ten _)]
  have hlen : (String.mk (bodyL ++ [digitChar (luhnCheckDigitN ⟨bodyL⟩)])).length
      = bodyL.length + 1 := by
    show (bodyL ++ [digitChar (luhnCheckDigitN ⟨bodyL⟩)]).length = bodyL.length + 1
    simp
  unfold ValidatePAN
  rw [if_neg (by simp [String.ext_iff])]
  rw [if_neg (by simp [hdig])]
  rw [if_neg (by rw [hlen]; omega)]
  rw [if_pos]
  show (bodyL ++ [digitChar (luhnCheckDigitN ⟨bodyL⟩)]).getLastD ' '
    = digitChar (luhnCheckDigitN ⟨(bodyL ++ [digitChar (luhnCheckDigitN ⟨bodyL⟩)]).dropLast⟩)
  rw [List.dropLast_concat, List.getLastD_concat]

theorem randomDigits_spec :
    ∀ {n : Nat} {bs ds rest : List Nat}, randomDigits n bs = some (ds, rest) →
      ds.length = n ∧ ∀ d ∈ ds, d < 10 := by
  intro n bs
  induction bs generalizing n with
  | nil =>
    intro ds rest h
    cases n with
    | zero =>
      rw [randomDigits] at h
      cases h
      exact ⟨rfl, by intro d hd; simp at hd⟩
    | succ n =>
      rw [randomDigits] at h
      exact Option.noConfusion h
  | cons b rest2 ih =>
    intro ds rest h
    cases n with
    | zero =>
      rw [randomDigits] at h
      cases h
      exact ⟨rfl, by intro d hd; simp at hd⟩
    | succ n =>
      rw [randomDigits] at h
      by_cases hb : b < 250
      · rw [if_pos hb] at h
        cases hin : randomDigits n rest2 with
        | none => rw [hin] at h; exact Option.noConfusion h
        | some p =>
          obtain ⟨ds2, rem⟩ := p
          rw [hin] at h
          simp only [Option.map_some', Option.some.injEq, Prod.mk.injEq] at h
          obtain ⟨hds, -⟩ := h
          have hr := ih hin
          subst hds
          refine ⟨by simp [hr.1], ?_⟩
          intro d hdm
          rcases List.mem_cons.mp hdm with rfl | hdm2
          · exact Nat.mod_lt _ (by norm_num)
          · exact hr.2 d hdm2
      · rw [if_neg hb] at h
        exact ih h

theorem generatePAN_shape {bin : String} {bytes : List Nat} {pan : String}
    {rest : List Nat} (hv : ValidateBIN bin = .ok ())
    (h : GeneratePAN bin "" bytes = .ok (pan, rest)) :
    ∃ ds, randomDigits (16 - 1 - (bin.length : Int)).toNat bytes = some (ds, rest) ∧
      pan = ⟨(bin.data ++ ds.map digitChar) ++
        [digitChar (luhnCheckDigitN ⟨bin.data ++ ds.map digitChar⟩)]⟩ := by
  have htrim : goTrimSpace "" = "" := rfl
  simp only [GeneratePAN, hv, htrim, ne_eq, not_true_eq_false, false_and, if_false] at h
  split_ifs at h with h1
  cases hr : randomDigits (16 - 1 - (bin.length : Int)).toNat bytes with
    | none => rw [hr] at h; exact Except.noConfusion h
    | some p =>
      obtain ⟨ds, rem⟩ := p
      rw [hr] at h
      simp only [Except.ok.injEq, Prod.mk.injEq] at h
      refine ⟨ds, ?_, ?_⟩
      · rw [h.2]
      · rw [← h.1]
        show String.mk _ = String.mk _
        have hov : overlaySeq ds "" = ds := rfl
        rw [hov]

theorem generatePANWithLength_shape {bin : String} {totalLen : Int}
    {bytes : List Nat} {pan : String} {rest : List Nat}
    (hv : ValidateBIN bin = .ok ())
    (h : GeneratePANWithLength bin totalLen "" bytes = .ok (pan, rest)) :
    ∃ ds, randomDigits (totalLen - 1 - (bin.length : Int)).toNat bytes
        = some (ds, rest) ∧
      pan = ⟨(bin.data ++ ds.map digitChar) ++
        [digitChar (luhnCheckDigitN ⟨bin.data ++ ds.map digitChar⟩)]⟩ := by
  have htrim : goTrimSpace "" = "" := rfl
  simp only [GeneratePANWithLength, hv, htrim, ne_eq, not_true_eq_false, false_and,
    if_false] at h
  split_ifs at h with h0 h1
  cases hr : randomDigits (totalLen - 1 - (bin.length : Int)).toNat bytes with
    | none => rw [hr] at h; exact Except.noConfusion h
    | some p =>
      obtain ⟨ds, rem⟩ := p
      rw [hr] at h
      simp only [Except.ok.injEq, Prod.mk.injEq] at h
      refine ⟨ds, ?_, ?_⟩
      · rw [h.2]
      · rw [← h.1]
        show String.mk _ = String.mk _
        have hov : overlaySeq ds "" = ds := rfl
        rw [hov]

theorem validateBIN_ok_parts {bin : String} (hv : ValidateBIN bin = .ok ()) :
    IsDigits bin = true ∧ (bin.length = 6 ∨ bin.length = 8 ∨ bin.length = 9) := by
  unfold ValidateBIN at hv
  split_ifs at hv with v1 v2 v3
  refine ⟨?_, v3⟩
  simpa using v2

theorem generated_body_digits {bin : String} {ds : List Nat}
    (hbin : IsDigits bin = true) (hds : ∀ d ∈ ds, d < 10) :
    (bin.data ++ ds.map digitChar).all isDigitChar = true := by
  have hbin2 : bin.data.all isDigitChar = true := hbin
  rw [List.all_append, hbin2, Bool.true_and]
  rw [List.all_eq_true]
  intro c hc
  rcases List.mem_map.mp hc with ⟨d, hd, rfl⟩
  exact isDigitChar_digitChar (hds d hd)

/-- C9: (a) for every BIN accepted by `ValidateBIN`, any successful
`GeneratePAN(bin, "")` output passes `ValidatePAN`; (b) every successful
`GeneratePANWithLength("421234", 16, "")` output is a 16-digit all-numeric
Luhn-valid string starting with "421234"; (c) flipping any single
non-check digit of a `ValidatePAN`-accepted string to a different digit
makes `ValidatePAN` fail on the Luhn check. -/
theorem luhn_generate_validate_spec :
    (∀ (bin : String) (bytes : List Nat) (pan : String) (rest : List Nat),
      ValidateBIN bin = .ok () →
      GeneratePAN bin "" bytes = .ok (pan, rest) → ValidatePAN pan = .ok ()) ∧
    (∀ (bytes : List Nat) (pan : String) (rest : List Nat),
      GeneratePANWithLength "421234" 16 "" bytes = .ok (pan, rest) →
      pan.length = 16 ∧ IsDigits pan = true ∧ ValidatePAN pan = .ok () ∧
        pan.data.take 6 = "421234".data) ∧
    (∀ (pre suf : List Char) (c c2 cd : Char),
      ValidatePAN ⟨(pre ++ c :: suf) ++ [cd]⟩ = .ok () →
      isDigitChar c2 = true → c2 ≠ c →
      ValidatePAN ⟨(pre ++ c2 :: suf) ++ [cd]⟩ = .error .badLuhn) := by
  refine ⟨?_, ?_, ?_⟩
  · intro bin bytes pan rest hv h
    obtain ⟨ds, hr, hpan⟩ := generatePAN_shape hv h
    obtain ⟨hdl, hdv⟩ := randomDigits_spec hr
    obtain ⟨hbindig, hbinlen⟩ := validateBIN_ok_parts hv
    subst hpan
    have hbl : bin.data.length = bin.length := rfl
    refine validatePAN_generated _ (generated_body_digits hbindig hdv) ?_ ?_ <;>
      · rw [List.length_append, List.length_map, hdl, hbl]
        omega
  · intro bytes pan rest h
    obtain ⟨ds, hr, hpan⟩ := @generatePANWithLength_shape "421234" 16 bytes pan rest rfl h
    obtain ⟨hdl, hdv⟩ := randomDigits_spec hr
    have hdl9 : ds.length = 9 := by rw [hdl]; rfl
    subst hpan
    have hbody : ("421234".data ++ ds.map digitChar).all isDigitChar = true :=
      generated_body_digits rfl hdv
    have hblen : ("421234".data ++ ds.map digitChar).length = 15 := by
      rw [List.length_append, List.length_map, hdl9]
      rfl
    refine ⟨?_, ?_, ?_, ?_⟩
    · show (("421234".data ++ ds.map digitChar) ++ [_]).length = 16
      rw [List.length_append, hblen]
      rfl
    · unfold IsDigits
      show (("421234".data ++ ds.map digitChar) ++ [_]).all isDigitChar = true
      rw [List.all_append, hbody]
      simp [isDigitChar_digitChar (luhnCheckDigitN_lt_ten _)]
    · exact validatePAN_generated _ hbody (by rw [hblen]; omega) (by rw [hblen]; omega)
    · show (("421234".data ++ ds.map digitChar) ++ [_]).take 6 = "421234".data
      rw [List.append_assoc]
      exact List.take_left' rfl
  · intro pre suf c c2 cd h hc2 hne
    unfold ValidatePAN at h
    split_ifs at h with p1 p2 p3 p4
    rw [List.getLastD_concat, List.dropLast_concat] at p4
    have hdig1 : ((pre ++ c :: suf) ++ [cd]).all isDigitChar = true := by
      have h2 : IsDigits ⟨(pre ++ c :: suf) ++ [cd]⟩ = true := by simpa using p2
      exact h2
    simp only [List.all_append, List.all_cons, Bool.and_eq_true] at hdig1
    obtain ⟨⟨hpre, hc, hsuf⟩, hcd, -⟩ := hdig1
    have hdig2 : IsDigits ⟨(pre ++ c2 :: suf) ++ [cd]⟩ = true := by
      unfold IsDigits
      show ((pre ++ c2 :: suf) ++ [cd]).all isDigitChar = true
      simp only [List.all_append, List.all_cons, Bool.and_eq_true]
      exact ⟨⟨hpre, hc2, hsuf⟩, hcd, by simp⟩
    have hlen2 : (String.mk ((pre ++ c2 :: suf) ++ [cd])).length
        = (String.mk ((pre ++ c :: suf) ++ [cd])).length := by
      show ((pre ++ c2 :: suf) ++ [cd]).length = ((pre ++ c :: suf) ++ [cd]).length
      simp
    have hck : ¬(((pre ++ c2 :: suf) ++ [cd]).getLastD ' '
        = digitChar (luhnCheckDigitN ⟨((pre ++ c2 :: suf) ++ [cd]).dropLast⟩)) := by
      rw [List.getLastD_concat, List.dropLast_concat, p4]
      intro heq
      have heqn := digitChar_injective (luhnCheckDigitN_lt_ten _)
        (luhnCheckDigitN_lt_ten _) heq
      exact luhnCheckDigitN_flip pre suf c c2 hc hc2 hne heqn
    unfold ValidatePAN
    rw [if_neg (by simp [String.ext_iff])]
    rw [if_neg (by
      rw [Bool.not_eq_true', hdig2]
      exact fun hb => Bool.noConfusion hb)]
    rw [if_neg (by rw [hlen2]; exact p3)]
    rw [if_neg hck]

/-- Witness for C9: with nine zero random bytes, the generator produces
"4212340000000006", which validates; flipping its fifteenth digit (a
non-check digit) from 0 to 9 fails the Luhn check. -/
theorem luhn_generate_validate_spec_witness :
    ValidatePAN "4212340000000006" = .ok () ∧
    ValidatePAN "4212340000000096" = .error .badLuhn := by
  constructor
  · exact (luhn_generate_validate_spec.2.1 (List.replicate 9 0) "4212340000000006" []
      (by rfl)).2.2.1
  · exact luhn_generate_validate_spec.2.2 "42123400000000".data [] '0' '9' '6'
      (by rfl) (by rfl) (by decide)
